import Mathlib

/-!
# Animated Text (`extensions/lab/text.js`)

A shallow embedding of the text costume skin of the Animated Text extension:
the colour utilities, the layout loop of `_renderAtScale`, the animation state
machine of `TextCostumeSkin` (typing, rainbow, zoom) together with the host
timers and promises it drives, and the `animateText` block.

Conventions.
* JavaScript numbers are rationals (`ℚ`), timestamps returned by `Date.now()`
  are integers (milliseconds). The layout arithmetic (widths, offsets, font
  sizes) is carried out exactly. The colour arithmetic of the rainbow is
  carried out as the code does it, in IEEE 754 doubles: every operation is
  followed by the rounding `toDouble`, because `| 0` and the hexadecimal
  digits make the last bit of a double visible. The same functions with the
  rounding replaced by the identity (`…With id`) are the exact-arithmetic
  reading of the code.
* A JavaScript string whose characters are counted or sliced is a list of
  characters, one element per UTF-16 code unit (`JSString`). Strings that are
  only stored and compared (colours, font names, menu values) are `String`.
* `Infinity` in `maxDisplayableCharacters` is `none`.
* A timer handle or a `resolve` callback that is `null` is `none`; a promise is
  named by the number the host gave it when it was created.
-/

namespace AnimatedText

/-! ## Constants -/

/-- A JavaScript string, one list element per UTF-16 code unit. -/
abbrev JSString := List Char

def ALIGN_LEFT : Nat := 0
def ALIGN_RIGHT : Nat := 1
def ALIGN_CENTER : Nat := 2

def DEFAULT_COLOR : String := "#575E75"
def DEFAULT_FONT : String := "Handwriting"
def DEFAULT_ALIGN : Nat := ALIGN_CENTER
def DEFAULT_FONT_SIZE : ℚ := 24
def DEFAULT_SPACE_BETWEEN_LINES : ℚ := 3

def TYPE_DELAY : ℚ := 1000 / 30
def RAINBOW_TIME_PER : ℚ := 1000
def RAINBOW_DURATION : ℚ := 2000
def ZOOM_DURATION : ℚ := 500

/-! ## JavaScript arithmetic helpers -/

/-- The function `Math.round`: the nearest integer, ties going up. -/
def jsRound (x : ℚ) : ℤ := ⌊x + 1 / 2⌋

/-- The truncation of a rational towards zero. -/
def jsTrunc (x : ℚ) : ℤ := if 0 ≤ x then ⌊x⌋ else ⌈x⌉

/-- The expression `x % 1`: the remainder has the sign of the dividend. -/
def jsMod1 (x : ℚ) : ℚ := x - jsTrunc x

/-- The expression `x | 0` (ToInt32): truncate, then wrap into the signed 32-bit range. -/
def toInt32 (x : ℚ) : ℤ := (jsTrunc x + 2 ^ 31) % 2 ^ 32 - 2 ^ 31

/-- The method `Number.prototype.toString(16)` on an integer. -/
def toString16 (n : ℤ) : String :=
  if n < 0 then "-" ++ String.mk (Nat.toDigits 16 n.natAbs)
  else String.mk (Nat.toDigits 16 n.natAbs)

/-- The call `s.padStart(2, '0')`. -/
def padStart2 (s : String) : String :=
  String.mk (List.replicate (2 - s.length) '0') ++ s

/-- Round a rational to the nearest integer, a tie going to the even one. -/
def roundHalfEven (x : ℚ) : ℤ :=
  let n : ℤ := ⌊x⌋
  let r : ℚ := x - n
  if r < 1 / 2 then n else if 1 / 2 < r then n + 1 else if n % 2 = 0 then n else n + 1

/-- The number of halvings that bring `n` below 2, counted with `fuel` steps at most. -/
def log2Fuel : Nat → Nat → Nat
  | 0, _ => 0
  | fuel + 1, n => if n < 2 then 0 else log2Fuel fuel (n / 2) + 1

/-- The exponent of the power of two at or just below a positive rational:
the integer `e` with `2 ^ e ≤ x < 2 ^ (e + 1)`. -/
def floorLog2 (x : ℚ) : ℤ :=
  let e : ℤ := (log2Fuel x.num.natAbs x.num.natAbs : ℤ) - (log2Fuel x.den x.den : ℤ)
  if x < 2 ^ e then e - 1 else e

/-- The IEEE 754 double nearest to a rational, a tie going to the even
significand: 53 significant bits, and steps of `2 ^ (-1074)` below
`2 ^ (-1022)`. The result of every JavaScript `+`, `-`, `*` and `/` is the exact
result rounded this way. Overflow to `Infinity` (beyond `2 ^ 1024`) and the sign
of zero are not represented. -/
def toDouble (x : ℚ) : ℚ :=
  if x = 0 then 0
  else
    let e : ℤ := max (floorLog2 |x|) (-1022)
    let ulp : ℚ := 2 ^ (e - 52)
    roundHalfEven (x / ulp) * ulp

/-! ## Colour and gradient utilities -/

def formatComponent (c : ℚ) : String := padStart2 (toString16 (jsRound c))

def formatColor (color : ℤ × ℤ × ℤ) : String :=
  "#" ++ formatComponent color.1 ++ formatComponent color.2.1 ++ formatComponent color.2.2

/-- The function `hsvToRGB`, every arithmetic result being rounded by `fl`.
When no `case` of the `switch` matches, the three channels stay `undefined` and
`undefined * 255 | 0` is `0`. -/
def hsvToRGBWith (fl : ℚ → ℚ) (h s v : ℚ) : ℤ × ℤ × ℤ :=
  let i : ℤ := ⌊fl (h * 6)⌋
  let f : ℚ := fl (fl (h * 6) - i)
  let p : ℚ := fl (v * fl (1 - s))
  let q : ℚ := fl (v * fl (1 - fl (f * s)))
  let t : ℚ := fl (v * fl (1 - fl (fl (1 - f) * s)))
  match Int.tmod i 6 with
  | 0 => (toInt32 (fl (v * 255)), toInt32 (fl (t * 255)), toInt32 (fl (p * 255)))
  | 1 => (toInt32 (fl (q * 255)), toInt32 (fl (v * 255)), toInt32 (fl (p * 255)))
  | 2 => (toInt32 (fl (p * 255)), toInt32 (fl (v * 255)), toInt32 (fl (t * 255)))
  | 3 => (toInt32 (fl (p * 255)), toInt32 (fl (q * 255)), toInt32 (fl (v * 255)))
  | 4 => (toInt32 (fl (t * 255)), toInt32 (fl (p * 255)), toInt32 (fl (v * 255)))
  | 5 => (toInt32 (fl (v * 255)), toInt32 (fl (p * 255)), toInt32 (fl (q * 255)))
  | _ => (0, 0, 0)

/-- The function `hsvToRGB` as the code runs it, in doubles. -/
def hsvToRGB (h s v : ℚ) : ℤ × ℤ × ℤ := hsvToRGBWith toDouble h s v

/-- A canvas gradient: the line it spans and the colour stops added so far,
oldest first, each a position and a colour. -/
structure CanvasGradient where
  x0 : ℚ
  y0 : ℚ
  x1 : ℚ
  y1 : ℚ
  stops : List (ℚ × String)
  deriving DecidableEq

def CanvasGradient.addColorStop (g : CanvasGradient) (position : ℚ) (color : String) :
    CanvasGradient :=
  { g with stops := g.stops ++ [(position, color)] }

def NUMBER_STOPS : Nat := 20

/-- The hue `offsetPosition` computed by `addRainbowStops` for the stop at
`exactPosition`, the subtraction and the addition being rounded by `fl`; the
remainder `% 1` of a double is exact. -/
def offsetPositionWith (fl : ℚ → ℚ) (exactPosition offset : ℚ) : ℚ :=
  let r := jsMod1 (fl (exactPosition - offset))
  if r < 0 then fl (r + 1) else r

/-- The body of the loop of `addRainbowStops` for index `i`, every arithmetic
result being rounded by `fl`. -/
def addRainbowStopWith (fl : ℚ → ℚ) (offset : ℚ) (gradient : CanvasGradient) (i : Nat) :
    CanvasGradient :=
  let exactPosition : ℚ := fl ((i : ℚ) / (NUMBER_STOPS : ℚ))
  let rgb := hsvToRGBWith fl (offsetPositionWith fl exactPosition offset) 1 1
  (gradient.addColorStop exactPosition (formatColor rgb)).addColorStop exactPosition
    (formatColor rgb)

/-- The function `addRainbowStops`, the loop `for (let i = 0; i < NUMBER_STOPS; i++)`,
every arithmetic result being rounded by `fl`. -/
def addRainbowStopsWith (fl : ℚ → ℚ) (gradient : CanvasGradient) (offset : ℚ) :
    CanvasGradient :=
  (List.range NUMBER_STOPS).foldl (addRainbowStopWith fl offset) gradient

/-- The hue `offsetPosition` as the code computes it, in doubles. -/
def offsetPosition (exactPosition offset : ℚ) : ℚ :=
  offsetPositionWith toDouble exactPosition offset

/-- The function `addRainbowStops` as the code runs it, in doubles. -/
def addRainbowStops (gradient : CanvasGradient) (offset : ℚ) : CanvasGradient :=
  addRainbowStopsWith toDouble gradient offset

/-! ## The skin and its host -/

/-- A wrapped line: trimmed text and measured width. -/
structure Line where
  text : JSString
  width : ℚ
  deriving DecidableEq

/-- The value of `ctx.font` built by `_getFontStyle`: size in pixels and family. -/
structure FontStyle where
  size : ℚ
  family : String
  deriving DecidableEq

/-- The text services of the renderer, which is not part of this file:
`renderer.createTextWrapper(provider).wrapText` and
`CanvasMeasurementProvider.measureText`, both for the font set on the canvas. -/
structure TextServices where
  wrapText : FontStyle → ℚ → JSString → List JSString
  measureText : FontStyle → JSString → ℚ

/-- The fields of a `TextCostumeSkin`. -/
structure TextCostumeSkin where
  id : Nat
  text : JSString
  color : String
  textWidth : ℚ
  fontFamily : String
  baseFontSize : ℚ
  spaceBetweenLines : ℚ
  align : Nat
  lines : List Line
  _size : ℚ × ℚ
  _rotationCenter : ℚ × ℚ
  calculatedFontSize : ℚ
  maxDisplayableCharacters : Option Nat
  typeAnimationInterval : Option Nat
  isRainbow : Bool
  rainbowStartTime : ℤ
  rainbowTimeout : Option Nat
  isZooming : Bool
  zoomStartTime : ℤ
  zoomTimeout : Option Nat
  resolveOngoingAnimation : Option Nat
  deriving DecidableEq

/-- Which callback a scheduled timer runs: the tick of `startTypeAnimation`
(a `setInterval`) or the timeout of `startRainbowAnimation` or of
`startZoomAnimation` (a `setTimeout`). -/
inductive TimerKind where
  | typeTick
  | rainbowEnd
  | zoomEnd
  deriving DecidableEq

/-- A scheduled timer: its handle, its callback, and the promise whose
`resolve` the callback closes over. -/
structure Timer where
  id : Nat
  kind : TimerKind
  resolve : Nat
  deriving DecidableEq

/-- The host side of one skin: scheduled timers, promises, notifications.
`fulfilled` lists the promises in the order in which they were fulfilled,
`resolveCalls` every invocation of a `resolve` callback, and `altered` counts
the calls of `emitWasAltered`. -/
structure Host where
  timers : List Timer
  nextTimerId : Nat
  nextPromise : Nat
  fulfilled : List Nat
  resolveCalls : List Nat
  altered : Nat
  deriving DecidableEq

/-- A skin together with its host. -/
structure World where
  skin : TextCostumeSkin
  host : Host
  deriving DecidableEq

/-- The constructor of `TextCostumeSkin`; `stageWidth` is `vm.runtime.stageWidth`. -/
def TextCostumeSkin.new (id : Nat) (stageWidth : ℚ) : TextCostumeSkin where
  id := id
  text := []
  color := DEFAULT_COLOR
  textWidth := stageWidth
  fontFamily := DEFAULT_FONT
  baseFontSize := DEFAULT_FONT_SIZE
  spaceBetweenLines := DEFAULT_SPACE_BETWEEN_LINES
  align := DEFAULT_ALIGN
  lines := []
  _size := (0, 0)
  _rotationCenter := (0, 0)
  calculatedFontSize := DEFAULT_FONT_SIZE
  maxDisplayableCharacters := none
  typeAnimationInterval := none
  isRainbow := false
  rainbowStartTime := 0
  rainbowTimeout := none
  isZooming := false
  zoomStartTime := 0
  zoomTimeout := none
  resolveOngoingAnimation := none

/-- A host on which nothing has happened yet. -/
def Host.fresh : Host where
  timers := []
  nextTimerId := 0
  nextPromise := 0
  fulfilled := []
  resolveCalls := []
  altered := 0

/-- A freshly constructed skin on a fresh host. -/
def World.initial (id : Nat) (stageWidth : ℚ) : World :=
  { skin := TextCostumeSkin.new id stageWidth, host := Host.fresh }

/-! ### Host operations -/

/-- The call `emitWasAltered()`. -/
def emitWasAltered (w : World) : World :=
  { w with host := { w.host with altered := w.host.altered + 1 } }

/-- An invocation of the `resolve` callback of promise `p`: the first one
fulfils the promise, later ones do nothing. -/
def callResolve (p : Nat) (w : World) : World :=
  { w with host :=
      { w.host with
        resolveCalls := w.host.resolveCalls ++ [p]
        fulfilled := if p ∈ w.host.fulfilled then w.host.fulfilled
                     else w.host.fulfilled ++ [p] } }

/-- The calls `clearInterval(handle)` and `clearTimeout(handle)`, which share
one pool of handles: `null` and handles that are not scheduled are ignored. -/
def clearTimer (handle : Option Nat) (w : World) : World :=
  match handle with
  | none => w
  | some h => { w with host := { w.host with timers := w.host.timers.filter (fun t => t.id ≠ h) } }

/-- The calls `setInterval(callback, delay)` and `setTimeout(callback, delay)`:
schedule the callback under a fresh handle and return the handle. -/
def setTimer (kind : TimerKind) (resolve : Nat) (w : World) : World × Nat :=
  ({ w with host :=
      { w.host with
        timers := w.host.timers ++ [{ id := w.host.nextTimerId, kind := kind, resolve := resolve }]
        nextTimerId := w.host.nextTimerId + 1 } },
   w.host.nextTimerId)

/-! ### Skin getters and geometry -/

/-- The getter `size`. -/
def TextCostumeSkin.size (s : TextCostumeSkin) : ℚ × ℚ := s._size

/-- The getter `volatile`. -/
def TextCostumeSkin.volatile (s : TextCostumeSkin) : Bool := s.isRainbow || s.isZooming

def TextCostumeSkin._getFontStyle (s : TextCostumeSkin) : FontStyle :=
  { size := s.calculatedFontSize, family := s.fontFamily }

/-- The method `_calculateFontSize`; `now` is `Date.now()`. -/
def TextCostumeSkin._calculateFontSize (s : TextCostumeSkin) (now : ℤ) : ℚ :=
  if s.isZooming then
    let time : ℚ := ((now - s.zoomStartTime : ℤ) : ℚ)
    let progress : ℚ := max 0 (min 1 (time / ZOOM_DURATION))
    s.baseFontSize * progress
  else s.baseFontSize

/-- The white space and line terminators removed by `String.prototype.trimEnd`. -/
def isWhiteSpace (c : Char) : Bool :=
  let n := c.toNat
  n = 0x9 || n = 0xA || n = 0xB || n = 0xC || n = 0xD || n = 0x20 || n = 0xA0 ||
  n = 0x1680 || (0x2000 ≤ n && n ≤ 0x200A) || n = 0x2028 || n = 0x2029 || n = 0x202F ||
  n = 0x205F || n = 0x3000 || n = 0xFEFF

/-- The method `String.prototype.trimEnd`. -/
def trimEnd (s : JSString) : JSString := (s.reverse.dropWhile isWhiteSpace).reverse

/-- The method `_calculateDimensions`. -/
def TextCostumeSkin._calculateDimensions (env : TextServices) (now : ℤ)
    (s : TextCostumeSkin) : TextCostumeSkin :=
  let s1 := { s with calculatedFontSize := s._calculateFontSize now }
  let font := s1._getFontStyle
  let lines := env.wrapText font s1.textWidth s1.text
  let s2 := { s1 with lines := lines.map fun line =>
    let trimmed := trimEnd line
    { text := trimmed, width := env.measureText font trimmed } }
  let width : ℚ := jsRound s2.textWidth
  let height : ℚ := jsRound ((s2.lines.length : ℚ) * (s2.baseFontSize + s2.spaceBetweenLines))
  { s2 with
    _size := (width, height)
    _rotationCenter := (width / 2, s2.calculatedFontSize * (8 / 10)) }

/-! ### Composition -/

/-- The value of `ctx.fillStyle`: a colour string or a gradient. -/
inductive FillStyle where
  | color (c : String)
  | gradient (g : CanvasGradient)
  deriving DecidableEq

/-- One call `ctx.fillText(text, x, y)` together with the fill style in force. -/
structure FillTextCall where
  text : JSString
  x : ℚ
  y : ℤ
  fillStyle : FillStyle
  deriving DecidableEq

/-- The value `this.maxDisplayableCharacters - displayedCharacters`; `none` is `Infinity`. -/
def remainingCharacters (maxDisplayableCharacters : Option Nat) (displayedCharacters : Nat) :
    Option ℤ :=
  maxDisplayableCharacters.map fun m => (m : ℤ) - (displayedCharacters : ℤ)

/-- The call `text.substring(0, finish)`: a negative end counts as `0`, an end
beyond the text as the length of the text. -/
def substringTo (text : JSString) (finish : Option ℤ) : JSString :=
  match finish with
  | none => text
  | some e => text.take e.toNat

/-- The horizontal offset `xOffset` computed in the loop of `_renderAtScale`. -/
def xOffset (align : Nat) (textWidth lineWidth : ℚ) : ℚ :=
  if align = ALIGN_LEFT then 0
  else if align = ALIGN_CENTER then jsRound ((textWidth - lineWidth) / 2)
  else textWidth - lineWidth

/-- The loop over `this.lines` in `_renderAtScale`, from line index `i` on, with
`displayedCharacters` characters counted so far and `fillStyle` in force. -/
def drawLines (s : TextCostumeSkin) (rainbowOffset : ℚ) :
    Nat → Nat → FillStyle → List Line → List FillTextCall
  | _, _, _, [] => []
  | i, displayedCharacters, fillStyle, line :: rest =>
    let displayedText :=
      substringTo line.text (remainingCharacters s.maxDisplayableCharacters displayedCharacters)
    let x := xOffset s.align s.textWidth line.width
    let style :=
      if s.isRainbow then
        FillStyle.gradient
          (addRainbowStops { x0 := x, y0 := 0, x1 := x + line.width, y1 := 0, stops := [] }
            rainbowOffset)
      else fillStyle
    { text := displayedText
      x := x
      y := jsRound ((i : ℚ) * (s.baseFontSize + s.spaceBetweenLines) + s.baseFontSize * (9 / 10))
      fillStyle := style } ::
      drawLines s rainbowOffset (i + 1) (displayedCharacters + line.text.length) style rest

/-- The canvas after `_renderAtScale`: its size and the text drawn on it. -/
structure Canvas where
  width : ℤ
  height : ℤ
  calls : List FillTextCall
  deriving DecidableEq

/-- The method `_renderAtScale`, up to the upload of the canvas as a texture. -/
def TextCostumeSkin._renderAtScale (env : TextServices) (now : ℤ) (requestedScale : ℚ)
    (s : TextCostumeSkin) : TextCostumeSkin × Canvas :=
  let s1 := s._calculateDimensions env now
  let rainbowOffset : ℚ :=
    if s1.isRainbow then toDouble (((now - s1.rainbowStartTime : ℤ) : ℚ) / RAINBOW_TIME_PER)
    else 0
  (s1,
   { width := ⌈s1._size.1 * requestedScale⌉
     height := ⌈s1._size.2 * requestedScale⌉
     calls := drawLines s1 rainbowOffset 0 0 (FillStyle.color s1.color) s1.lines })

/-- The method `getTexture`; `none` is a missing `scale`. -/
def TextCostumeSkin.getTexture (env : TextServices) (now : ℤ) (scale : Option (ℚ × ℚ))
    (s : TextCostumeSkin) : TextCostumeSkin × Canvas :=
  let scaleMax : ℚ :=
    match scale with
    | some sc => max |sc.1| |sc.2|
    | none => 100
  s._renderAtScale env now (min 10 (scaleMax / 100))

/-! ### Setters -/

def setText (env : TextServices) (now : ℤ) (text : JSString) (w : World) : World :=
  emitWasAltered { w with skin := ({ w.skin with text := text })._calculateDimensions env now }

def setColor (color : String) (w : World) : World :=
  emitWasAltered { w with skin := { w.skin with color := color } }

def setAlign (env : TextServices) (now : ℤ) (align : Nat) (w : World) : World :=
  emitWasAltered { w with skin := ({ w.skin with align := align })._calculateDimensions env now }

def setWidth (env : TextServices) (now : ℤ) (width : ℚ) (w : World) : World :=
  emitWasAltered
    { w with skin := ({ w.skin with textWidth := width })._calculateDimensions env now }

def setFontFamily (env : TextServices) (now : ℤ) (font : String) (w : World) : World :=
  emitWasAltered
    { w with skin := ({ w.skin with fontFamily := font })._calculateDimensions env now }

/-! ### The animation state machine -/

/-- The method `cancelAnimation`. -/
def cancelAnimation (w : World) : World :=
  let w1 :=
    match w.skin.resolveOngoingAnimation with
    | some p => callResolve p w
    | none => w
  let w2 := { w1 with skin := { w1.skin with maxDisplayableCharacters := none } }
  let w3 := clearTimer w2.skin.typeAnimationInterval w2
  let w4 := { w3 with skin := { w3.skin with isRainbow := false } }
  let w5 := clearTimer w4.skin.rainbowTimeout w4
  let w6 := { w5 with skin := { w5.skin with isZooming := false } }
  let w7 := clearTimer w6.skin.zoomTimeout w6
  emitWasAltered w7

/-- The executor of the promise made by `_oneAnimationAtATime`, run on the
promise the host has just created: store its `resolve`, then run `newCallback`. -/
def newAnimation (newCallback : Nat → World → World) (w : World) : World × Nat :=
  let p := w.host.nextPromise
  let w1 := { w with host := { w.host with nextPromise := p + 1 } }
  let w2 := { w1 with skin := { w1.skin with resolveOngoingAnimation := some p } }
  (newCallback p w2, p)

/-- The method `_oneAnimationAtATime`: the world afterwards and the promise returned. -/
def _oneAnimationAtATime (newCallback : Nat → World → World) (w : World) : World × Nat :=
  newAnimation newCallback (cancelAnimation w)

/-- The comparison `maxDisplayableCharacters >= length`. -/
def budgetReached (maxDisplayableCharacters : Option Nat) (length : Nat) : Bool :=
  match maxDisplayableCharacters with
  | none => true
  | some m => decide (length ≤ m)

/-- The callback given to `setInterval` by `startTypeAnimation`. -/
def typeTick (resolve : Nat) (w : World) : World :=
  let w1 := { w with skin :=
    { w.skin with maxDisplayableCharacters := w.skin.maxDisplayableCharacters.map (· + 1) } }
  let w2 :=
    if budgetReached w1.skin.maxDisplayableCharacters w1.skin.text.length then
      let w3 := { w1 with skin := { w1.skin with maxDisplayableCharacters := none } }
      callResolve resolve (clearTimer w3.skin.typeAnimationInterval w3)
    else w1
  emitWasAltered w2

/-- The callback given to `_oneAnimationAtATime` by `startTypeAnimation`. -/
def beginType (resolve : Nat) (w : World) : World :=
  let w1 := { w with skin := { w.skin with maxDisplayableCharacters := some 0 } }
  let r := setTimer TimerKind.typeTick resolve w1
  { r.1 with skin := { r.1.skin with typeAnimationInterval := some r.2 } }

def startTypeAnimation (w : World) : World × Nat :=
  _oneAnimationAtATime beginType w

/-- The callback given to `setTimeout` by `startRainbowAnimation`. -/
def rainbowEnd (resolve : Nat) (w : World) : World :=
  emitWasAltered (callResolve resolve { w with skin := { w.skin with isRainbow := false } })

/-- The callback given to `_oneAnimationAtATime` by `startRainbowAnimation`. -/
def beginRainbow (now : ℤ) (resolve : Nat) (w : World) : World :=
  let w1 := { w with skin := { w.skin with isRainbow := true, rainbowStartTime := now } }
  let r := setTimer TimerKind.rainbowEnd resolve w1
  { r.1 with skin := { r.1.skin with rainbowTimeout := some r.2 } }

def startRainbowAnimation (now : ℤ) (w : World) : World × Nat :=
  _oneAnimationAtATime (beginRainbow now) w

/-- The callback given to `setTimeout` by `startZoomAnimation`. -/
def zoomEnd (resolve : Nat) (w : World) : World :=
  emitWasAltered (callResolve resolve { w with skin := { w.skin with isZooming := false } })

/-- The callback given to `_oneAnimationAtATime` by `startZoomAnimation`. -/
def beginZoom (now : ℤ) (resolve : Nat) (w : World) : World :=
  let w1 := { w with skin := { w.skin with isZooming := true, zoomStartTime := now } }
  let r := setTimer TimerKind.zoomEnd resolve w1
  { r.1 with skin := { r.1.skin with zoomTimeout := some r.2 } }

def startZoomAnimation (now : ℤ) (w : World) : World × Nat :=
  _oneAnimationAtATime (beginZoom now) w

/-- The host runs the callback of the timer scheduled under `handle`; nothing
happens when no such timer is scheduled. An interval stays scheduled, a
timeout is spent before its callback runs. -/
def fireTimer (handle : Nat) (w : World) : World :=
  match w.host.timers.find? (fun t => t.id = handle) with
  | none => w
  | some t =>
    match t.kind with
    | TimerKind.typeTick => typeTick t.resolve w
    | TimerKind.rainbowEnd => rainbowEnd t.resolve (clearTimer (some handle) w)
    | TimerKind.zoomEnd => zoomEnd t.resolve (clearTimer (some handle) w)

/-- What can happen to one skin. -/
inductive Step where
  | startTypeAnimation
  | startRainbowAnimation (now : ℤ)
  | startZoomAnimation (now : ℤ)
  | cancelAnimation
  | fire (handle : Nat)
  | setText (now : ℤ) (text : JSString)
  | setColor (color : String)
  | setAlign (now : ℤ) (align : Nat)
  | setWidth (now : ℤ) (width : ℚ)
  | setFontFamily (now : ℤ) (font : String)

def step (env : TextServices) (w : World) : Step → World
  | Step.startTypeAnimation => (startTypeAnimation w).1
  | Step.startRainbowAnimation now => (startRainbowAnimation now w).1
  | Step.startZoomAnimation now => (startZoomAnimation now w).1
  | Step.cancelAnimation => cancelAnimation w
  | Step.fire handle => fireTimer handle w
  | Step.setText now text => setText env now text w
  | Step.setColor color => setColor color w
  | Step.setAlign now align => setAlign env now align w
  | Step.setWidth now width => setWidth env now width w
  | Step.setFontFamily now font => setFontFamily env now font w

/-- The world after a sequence of steps. -/
def run (env : TextServices) (w : World) (steps : List Step) : World :=
  steps.foldl (step env) w

/-- The worlds a freshly constructed skin can get into. -/
def Reachable (env : TextServices) (w : World) : Prop :=
  ∃ (id : Nat) (stageWidth : ℚ) (steps : List Step),
    w = run env (World.initial id stageWidth) steps

/-- Typing is active: the visible-character budget is finite. -/
def TextCostumeSkin.typing (s : TextCostumeSkin) : Bool := s.maxDisplayableCharacters.isSome

/-- No animation is active. -/
def TextCostumeSkin.idle (s : TextCostumeSkin) : Bool :=
  !s.typing && !s.isRainbow && !s.isZooming

/-- The number of animations that are active. -/
def TextCostumeSkin.activeCount (s : TextCostumeSkin) : Nat :=
  s.typing.toNat + s.isRainbow.toNat + s.isZooming.toNat

/-! ## The extension blocks, for one target -/

/-- One target as the blocks see it: the state kept under `CUSTOM_STATE_KEY`
(`none` while the target has none), the skin its drawable shows, the renderer's
counter for fresh skin ids, the host of the skin, and the redraws requested. -/
structure Stage where
  host : Host
  state : Option TextCostumeSkin
  drawableSkinId : Nat
  nextDrawableId : Nat
  stageWidth : ℚ
  redrawsRequested : Nat
  deriving DecidableEq

/-- The method `_getState`, which creates the skin on first use
(`createTextCostumeSkin`): the stage afterwards and the skin with its host. -/
def Stage._getState (st : Stage) : Stage × World :=
  match st.state with
  | some skin => (st, { skin := skin, host := st.host })
  | none =>
    let skin := TextCostumeSkin.new st.nextDrawableId st.stageWidth
    ({ st with state := some skin, nextDrawableId := st.nextDrawableId + 1 },
     { skin := skin, host := st.host })

/-- The method `_hasState`. -/
def Stage._hasState (st : Stage) : Bool := st.state.isSome

/-- Write the skin and host of `w` back into the stage. -/
def Stage.store (st : Stage) (w : World) : Stage :=
  { st with state := some w.skin, host := w.host }

/-- The method `_renderText`: cancel the animation and show the text skin. -/
def Stage._renderText (st : Stage) (w : World) : Stage × World :=
  let w1 := cancelAnimation w
  ({ st with drawableSkinId := w1.skin.id }, w1)

/-- The block `setText`. -/
def Stage.setText (env : TextServices) (now : ℤ) (TEXT : JSString) (st : Stage) : Stage :=
  let r := st._getState
  let r1 := r.1._renderText r.2
  let st2 := r1.1.store (AnimatedText.setText env now TEXT r1.2)
  { st2 with redrawsRequested := st2.redrawsRequested + 1 }

/-- The block `animateText`: the stage afterwards and the value returned, a
promise or `undefined` (`none`). -/
def Stage.animateText (env : TextServices) (now : ℤ) (ANIMATE : String) (TEXT : JSString)
    (st : Stage) : Stage × Option Nat :=
  let r := st._getState
  let r1 := r.1._renderText r.2
  let w2 := cancelAnimation (AnimatedText.setText env now TEXT r1.2)
  if ANIMATE = "type" then
    let a := startTypeAnimation w2
    (r1.1.store a.1, some a.2)
  else if ANIMATE = "rainbow" then
    let a := startRainbowAnimation now w2
    (r1.1.store a.1, some a.2)
  else if ANIMATE = "zoom" then
    let a := startZoomAnimation now w2
    (r1.1.store a.1, some a.2)
  else
    (r1.1.store w2, none)

/-! ## Reference definitions, in the words of the specification -/

/-- The clamp of a number to the interval from 0 to 1. -/
def clamp01 (x : ℚ) : ℚ := if x < 0 then 0 else if 1 < x then 1 else x

/-- A skin in the middle of a zoom that started at time 100. -/
def zoomingSkin : TextCostumeSkin :=
  { TextCostumeSkin.new 0 480 with isZooming := true, zoomStartTime := 100 }

/-- The visible part of a text at a visible-character budget (`none` is
unlimited): its prefix of length `min budget length`. -/
def visiblePrefix (budget : Option Nat) (full : JSString) : JSString :=
  match budget with
  | none => full
  | some n => full.take (min n full.length)

/-- The order on visible-character budgets, unlimited being the largest. -/
def budgetLE : Option Nat → Option Nat → Prop
  | _, none => True
  | none, some _ => False
  | some m, some n => m ≤ n

/-- The number of characters on the lines before line `k`. -/
def charsBefore (lines : List Line) (k : Nat) : Nat :=
  ((lines.take k).map fun line => line.text.length).sum

/-- A right-aligned skin of width 200. -/
def rightAlignedSkin : TextCostumeSkin :=
  { TextCostumeSkin.new 0 480 with align := ALIGN_RIGHT, textWidth := 200 }

/-- Text services that wrap every text into the one line it is and measure every line as 50. -/
def fixedServices : TextServices where
  wrapText := fun _ _ text => [text]
  measureText := fun _ _ => 50

/-- Two wrapped lines, `Hello` and `world`. -/
def helloWorldLines : List Line :=
  [{ text := "Hello".toList, width := 50 }, { text := "world".toList, width := 52 }]

/-- Two wrapped lines, `ab` and an empty line. -/
def emptyLastLines : List Line :=
  [{ text := "ab".toList, width := 20 }, { text := [], width := 0 }]

/-- A skin that is typing with a given visible-character budget. -/
def typingSkin (budget : Nat) : TextCostumeSkin :=
  { TextCostumeSkin.new 0 480 with maxDisplayableCharacters := some budget }

/-- The hue of the rainbow at position `i / 20` after `t` milliseconds:
`(i / 20 − t / 1000) mod 1`, taken between 0 (included) and 1 (excluded). -/
def rainbowHue (t : ℚ) (i : Nat) : ℚ := Int.fract ((i : ℚ) / 20 - t / 1000)

/-- The colour stop the loop of `addRainbowStops` adds (twice) for index `i`,
every arithmetic result being rounded by `fl`. -/
def rainbowStopWith (fl : ℚ → ℚ) (offset : ℚ) (i : Nat) : ℚ × String :=
  (fl ((i : ℚ) / 20),
   formatColor (hsvToRGBWith fl (offsetPositionWith fl (fl ((i : ℚ) / 20)) offset) 1 1))

/-- A gradient without colour stops. -/
def emptyGradient : CanvasGradient := { x0 := 0, y0 := 0, x1 := 100, y1 := 0, stops := [] }

/-! ## The invariant of the animation state machine -/

/-- The animation fields of a skin agree with the timer `t` being the one
timer of the animation in progress. -/
def TextCostumeSkin.animating (s : TextCostumeSkin) (t : Timer) : Prop :=
  match t.kind with
  | TimerKind.typeTick =>
    s.typeAnimationInterval = some t.id ∧ s.maxDisplayableCharacters.isSome = true ∧
      s.isRainbow = false ∧ s.isZooming = false
  | TimerKind.rainbowEnd =>
    s.rainbowTimeout = some t.id ∧ s.maxDisplayableCharacters = none ∧
      s.isRainbow = true ∧ s.isZooming = false
  | TimerKind.zoomEnd =>
    s.zoomTimeout = some t.id ∧ s.maxDisplayableCharacters = none ∧
      s.isRainbow = false ∧ s.isZooming = true

/-- No timer is scheduled, no animation is active and every promise made so
far is fulfilled. -/
def World.settled (w : World) : Prop :=
  w.host.timers = [] ∧ w.skin.idle = true ∧ ∀ p, p < w.host.nextPromise → p ∈ w.host.fulfilled

/-- The timer `t` is the only one scheduled, it belongs to the animation that
is active, and its promise is the only one not yet fulfilled. -/
def World.inProgress (w : World) (t : Timer) : Prop :=
  w.host.timers = [t] ∧ w.skin.animating t ∧
    w.skin.resolveOngoingAnimation = some t.resolve ∧ t.resolve ∉ w.host.fulfilled ∧
    ∀ p, p < t.resolve → p ∈ w.host.fulfilled

/-- The invariant of the worlds a skin can get into. -/
structure Inv (w : World) : Prop where
  nodup : w.host.fulfilled.Nodup
  bound : ∀ p, p ∈ w.host.fulfilled → p < w.host.nextPromise
  ongoing : ∀ p, w.skin.resolveOngoingAnimation = some p → p + 1 = w.host.nextPromise
  logged : ∀ p, p ∈ w.host.resolveCalls ↔ p ∈ w.host.fulfilled
  shape : w.settled ∨ ∃ t, w.inProgress t

/-- The callback a start step hands to `_oneAnimationAtATime`. -/
def Step.callback? : Step → Option (Nat → World → World)
  | Step.startTypeAnimation => some beginType
  | Step.startRainbowAnimation now => some (beginRainbow now)
  | Step.startZoomAnimation now => some (beginZoom now)
  | _ => none

/-- The host fires the interval of the type animation once. -/
def tickType (w : World) : World :=
  match w.skin.typeAnimationInterval with
  | none => w
  | some handle => fireTimer handle w

/-- A fresh skin on which a zoom has just been started at time 0. -/
def zoomWorld : World :=
  run fixedServices (World.initial 0 480) [Step.startZoomAnimation 0]

/-- A fresh skin whose rainbow, started at time 0, has ended by its timeout. -/
def endedRainbowWorld : World :=
  run fixedServices (World.initial 0 480) [Step.startRainbowAnimation 0, Step.fire 0]

/-- A fresh skin showing the text `Hi`. -/
def hiWorld : World :=
  run fixedServices (World.initial 0 480) [Step.setText 0 "Hi".toList]

/-- A fresh skin on which the type animation has just been started. -/
def typingWorld : World :=
  run fixedServices (World.initial 0 480) [Step.startTypeAnimation]

/-- A target that shows its costume (skin 9) while the text skin it owns,
with the empty text, is in the middle of a zoom. -/
def zoomingStage : Stage where
  host := zoomWorld.host
  state := some zoomWorld.skin
  drawableSkinId := 9
  nextDrawableId := 1
  stageWidth := 480
  redrawsRequested := 0

/-- A fresh skin whose width has been set to 200.5 with the `setWidth` method. -/
def halfPixelWorld : World :=
  run fixedServices (World.initial 0 480) [Step.setWidth 0 (401 / 2)]

/-- Text services that wrap every text into two lines and measure every line as 50. -/
def twoLineServices : TextServices where
  wrapText := fun _ _ text => [text, text]
  measureText := fun _ _ => 50

/-- A fresh skin of width 200. -/
def narrowSkin : TextCostumeSkin := TextCostumeSkin.new 0 200

/-! ## Theorems -/

/-! ### Effective font size -/

theorem max_min_eq_clamp01 (x : ℚ) : max 0 (min 1 x) = clamp01 x := by
  unfold clamp01
  split_ifs with h0 h1
  · rw [max_eq_left]
    exact le_trans (min_le_right _ _) h0.le
  · rw [min_eq_left h1.le, max_eq_right zero_le_one]
  · rw [min_eq_right (not_lt.mp h1), max_eq_right (not_lt.mp h0)]

theorem clamp01_mono {x y : ℚ} (h : x ≤ y) : clamp01 x ≤ clamp01 y := by
  rw [← max_min_eq_clamp01, ← max_min_eq_clamp01]
  exact max_le_max le_rfl (min_le_min le_rfl h)

theorem clamp01_le_one (x : ℚ) : clamp01 x ≤ 1 := by
  rw [← max_min_eq_clamp01]
  exact max_le zero_le_one (min_le_left _ _)

theorem clamp01_nonneg (x : ℚ) : 0 ≤ clamp01 x := by
  rw [← max_min_eq_clamp01]
  exact le_max_left _ _

theorem calculateFontSize_zooming (s : TextCostumeSkin) (now : ℤ) (hz : s.isZooming = true) :
    s._calculateFontSize now
      = s.baseFontSize * clamp01 (((now - s.zoomStartTime : ℤ) : ℚ) / 500) := by
  simp only [TextCostumeSkin._calculateFontSize, hz, if_true, ZOOM_DURATION,
    max_min_eq_clamp01]

/-- C6: `_calculateFontSize` returns `baseFontSize` when the skin is not zooming;
while it is zooming it returns `baseFontSize × clamp01 (t / 500)` for the elapsed
time `t = now − zoomStartTime`, which is 0 at `t = 0`, equals `baseFontSize` for
every `t ≥ 500`, and, for a base font size that is not negative, is
non-decreasing in `t` and never exceeds `baseFontSize`. -/
theorem calculateFontSize_spec (s : TextCostumeSkin) (now : ℤ) :
    (s.isZooming = false → s._calculateFontSize now = s.baseFontSize) ∧
    (s.isZooming = true →
      s._calculateFontSize now
        = s.baseFontSize * clamp01 (((now - s.zoomStartTime : ℤ) : ℚ) / 500) ∧
      s._calculateFontSize s.zoomStartTime = 0 ∧
      (s.zoomStartTime + 500 ≤ now → s._calculateFontSize now = s.baseFontSize) ∧
      (0 ≤ s.baseFontSize →
        (∀ later : ℤ, now ≤ later →
          s._calculateFontSize now ≤ s._calculateFontSize later) ∧
        s._calculateFontSize now ≤ s.baseFontSize)) := by
  refine ⟨fun hz => ?_, fun hz => ⟨calculateFontSize_zooming s now hz, ?_, ?_, ?_⟩⟩
  · simp [TextCostumeSkin._calculateFontSize, hz]
  · rw [calculateFontSize_zooming s _ hz]
    simp [clamp01]
  · intro h
    rw [calculateFontSize_zooming s _ hz]
    have h1 : (1 : ℚ) ≤ ((now - s.zoomStartTime : ℤ) : ℚ) / 500 := by
      rw [le_div_iff₀ (by norm_num)]
      have : (500 : ℤ) ≤ now - s.zoomStartTime := by linarith
      have h2 : ((500 : ℤ) : ℚ) ≤ ((now - s.zoomStartTime : ℤ) : ℚ) := by exact_mod_cast this
      simpa using h2
    have h3 : clamp01 (((now - s.zoomStartTime : ℤ) : ℚ) / 500) = 1 := by
      apply le_antisymm (clamp01_le_one _)
      calc (1 : ℚ) = clamp01 1 := by norm_num [clamp01]
        _ ≤ _ := clamp01_mono h1
    rw [h3, mul_one]
  · intro hb
    refine ⟨fun later hl => ?_, ?_⟩
    · rw [calculateFontSize_zooming s _ hz, calculateFontSize_zooming s _ hz]
      apply mul_le_mul_of_nonneg_left _ hb
      apply clamp01_mono
      apply div_le_div_of_nonneg_right _ (by norm_num)
      have : now - s.zoomStartTime ≤ later - s.zoomStartTime := by linarith
      exact_mod_cast this
    · rw [calculateFontSize_zooming s _ hz]
      calc s.baseFontSize * clamp01 _ ≤ s.baseFontSize * 1 :=
            mul_le_mul_of_nonneg_left (clamp01_le_one _) hb
        _ = s.baseFontSize := mul_one _

/-- Witness for C6: a skin of base font size 24 whose zoom started at time 100
has font size 12 at time 350, 0 at time 100, 24 at time 600, and stays below 24. -/
theorem calculateFontSize_spec_witness :
    zoomingSkin._calculateFontSize 350 = 12 ∧
    zoomingSkin._calculateFontSize 100 = 0 ∧
    zoomingSkin._calculateFontSize 600 = 24 ∧
    zoomingSkin._calculateFontSize 350 ≤ zoomingSkin._calculateFontSize 600 ∧
    zoomingSkin._calculateFontSize 350 ≤ 24 := by
  have hb : (0 : ℚ) ≤ zoomingSkin.baseFontSize := by
    norm_num [zoomingSkin, TextCostumeSkin.new, DEFAULT_FONT_SIZE]
  obtain ⟨h1, h2, -, h4⟩ := (calculateFontSize_spec zoomingSkin 350).2 rfl
  obtain ⟨-, -, h3, -⟩ := (calculateFontSize_spec zoomingSkin 600).2 rfl
  have h3' := h3 (by norm_num [zoomingSkin, TextCostumeSkin.new])
  obtain ⟨h5, h6⟩ := h4 hb
  have h7 := h5 600 (by norm_num)
  refine ⟨?_, ?_, ?_, h7, ?_⟩
  · rw [h1]; norm_num [zoomingSkin, TextCostumeSkin.new, DEFAULT_FONT_SIZE, clamp01]
  · simpa [zoomingSkin, TextCostumeSkin.new] using h2
  · simpa [zoomingSkin, TextCostumeSkin.new, DEFAULT_FONT_SIZE] using h3'
  · simpa [zoomingSkin, TextCostumeSkin.new, DEFAULT_FONT_SIZE] using h6

/-! ### The drawing loop -/

theorem drawLines_length (s : TextCostumeSkin) (off : ℚ) (lines : List Line) :
    ∀ (i d : Nat) (fs : FillStyle), (drawLines s off i d fs lines).length = lines.length := by
  induction lines with
  | nil => intro i d fs; rfl
  | cons line rest ih => intro i d fs; simp [drawLines, ih]

/-- What the loop draws for line `k`: the text cut at the budget left after the
lines before it, at the offset of the alignment. -/
theorem drawLines_getElem? (s : TextCostumeSkin) (off : ℚ) (lines : List Line) :
    ∀ (i d : Nat) (fs : FillStyle) (k : Nat),
      ((drawLines s off i d fs lines)[k]?).map (fun c => (c.text, c.x))
        = (lines[k]?).map fun line =>
            (substringTo line.text
                (remainingCharacters s.maxDisplayableCharacters (d + charsBefore lines k)),
              xOffset s.align s.textWidth line.width) := by
  induction lines with
  | nil => intro i d fs k; simp [drawLines]
  | cons line rest ih =>
    intro i d fs k
    cases k with
    | zero => simp [drawLines, charsBefore]
    | succ k =>
      have h := ih (i + 1) (d + line.text.length) (if s.isRainbow then
        FillStyle.gradient
          (addRainbowStops
            { x0 := xOffset s.align s.textWidth line.width, y0 := 0,
              x1 := xOffset s.align s.textWidth line.width + line.width, y1 := 0, stops := [] }
            off)
        else fs) k
      simp only [drawLines, List.getElem?_cons_succ]
      rw [h]
      simp [charsBefore, Nat.add_assoc]

theorem jsRound_near (x : ℚ) : |(jsRound x : ℚ) - x| ≤ 1 / 2 := by
  unfold jsRound
  have h1 := Int.floor_le (x + 1 / 2)
  have h2 := Int.lt_floor_add_one (x + 1 / 2)
  rw [abs_le]
  constructor <;> linarith

/-- C7: the horizontal offset at which `_renderAtScale` draws a line is 0 for
left alignment, `round ((maxWidth − lineWidth) / 2)` for center alignment (the
nearest integer, so within 1/2 of the exact middle) and `maxWidth − lineWidth`
for right alignment. -/
theorem renderAtScale_xOffset (env : TextServices) (now : ℤ) (requestedScale : ℚ)
    (s : TextCostumeSkin) (k : Nat) (call : FillTextCall) (line : Line)
    (hcall : (s._renderAtScale env now requestedScale).2.calls[k]? = some call)
    (hline : (s._renderAtScale env now requestedScale).1.lines[k]? = some line) :
    (s.align = ALIGN_LEFT → call.x = 0) ∧
    (s.align = ALIGN_CENTER →
      call.x = jsRound ((s.textWidth - line.width) / 2) ∧
      |call.x - (s.textWidth - line.width) / 2| ≤ 1 / 2) ∧
    (s.align = ALIGN_RIGHT → call.x = s.textWidth - line.width) := by
  have h := drawLines_getElem? (s._calculateDimensions env now)
    (if (s._calculateDimensions env now).isRainbow then
      toDouble
        (((now - (s._calculateDimensions env now).rainbowStartTime : ℤ) : ℚ) / RAINBOW_TIME_PER)
     else 0)
    (s._calculateDimensions env now).lines 0 0
    (FillStyle.color (s._calculateDimensions env now).color) k
  simp only [TextCostumeSkin._renderAtScale] at hcall hline
  rw [hcall, hline] at h
  simp only [Option.map_some', Option.some.injEq, Prod.mk.injEq] at h
  have hx : call.x = xOffset s.align s.textWidth line.width := by
    rw [h.2]; rfl
  refine ⟨fun ha => ?_, fun ha => ?_, fun ha => ?_⟩
  · rw [hx, ha]; simp [xOffset]
  · have : call.x = jsRound ((s.textWidth - line.width) / 2) := by
      rw [hx, ha]; simp [xOffset, ALIGN_CENTER, ALIGN_LEFT]
    exact ⟨this, by rw [this]; exact jsRound_near _⟩
  · rw [hx, ha]; simp [xOffset, ALIGN_CENTER, ALIGN_LEFT, ALIGN_RIGHT]

/-- Witness for C7: right alignment, width 200 and a line of width 50 give offset 150. -/
theorem renderAtScale_xOffset_witness :
    rightAlignedSkin.align = ALIGN_RIGHT ∧
    ((rightAlignedSkin._renderAtScale fixedServices 0 1).1.lines.map fun l => l.width) = [50] ∧
    ((rightAlignedSkin._renderAtScale fixedServices 0 1).2.calls.map fun c => c.x) = [150] := by
  obtain ⟨c, hc⟩ : ∃ c, (rightAlignedSkin._renderAtScale fixedServices 0 1).2.calls = [c] :=
    ⟨_, rfl⟩
  have hl : (rightAlignedSkin._renderAtScale fixedServices 0 1).1.lines
      = [{ text := [], width := 50 }] := rfl
  have h := (renderAtScale_xOffset fixedServices 0 1 rightAlignedSkin 0 c
    { text := [], width := 50 } (by rw [hc]; rfl) (by rw [hl]; rfl)).2.2 rfl
  refine ⟨rfl, by rw [hl]; rfl, ?_⟩
  rw [hc, List.map_cons, List.map_nil, h]
  norm_num [rightAlignedSkin]

/-! ### The visible prefix -/

theorem charsBefore_succ (lines : List Line) (k : Nat) :
    charsBefore lines (k + 1)
      = charsBefore lines k + ((lines[k]?).map fun l => l.text.length).getD 0 := by
  unfold charsBefore
  rw [List.take_succ]
  cases lines[k]? <;> simp

theorem charsBefore_mono (lines : List Line) {j k : Nat} (h : j ≤ k) :
    charsBefore lines j ≤ charsBefore lines k := by
  induction k with
  | zero =>
    have : j = 0 := Nat.le_zero.mp h
    subst this
    exact le_rfl
  | succ k ih =>
    rcases Nat.lt_or_ge j (k + 1) with hlt | hge
    · have := ih (Nat.lt_succ_iff.mp hlt)
      rw [charsBefore_succ]
      omega
    · have : j = k + 1 := le_antisymm h hge
      subst this
      exact le_rfl

theorem substringTo_remaining_none (text : JSString) (d : Nat) :
    substringTo text (remainingCharacters none d) = text := rfl

theorem substringTo_remaining_some (text : JSString) (n d : Nat) :
    substringTo text (remainingCharacters (some n) d) = text.take (n - d) := by
  simp [substringTo, remainingCharacters, Int.toNat_sub]

theorem drawLines_flatten (s : TextCostumeSkin) (off : ℚ) (lines : List Line) :
    ∀ (i d : Nat) (fs : FillStyle),
      ((drawLines s off i d fs lines).map fun c => c.text).flatten
        = match s.maxDisplayableCharacters with
          | none => (lines.map fun l => l.text).flatten
          | some n => ((lines.map fun l => l.text).flatten).take (n - d) := by
  induction lines with
  | nil => intro i d fs; cases s.maxDisplayableCharacters <;> simp [drawLines]
  | cons line rest ih =>
    intro i d fs
    simp only [drawLines, List.map_cons, List.flatten_cons]
    rw [ih]
    cases hb : s.maxDisplayableCharacters with
    | none => simp [substringTo_remaining_none]
    | some n =>
      simp only [substringTo_remaining_some]
      rw [List.take_append_eq_append_take, Nat.sub_sub]

theorem visiblePrefix_some (n : Nat) (full : JSString) :
    visiblePrefix (some n) full = full.take n := by
  unfold visiblePrefix
  rcases le_total n full.length with h | h
  · simp [min_eq_left h]
  · simp [min_eq_right h, List.take_of_length_le h]

/-- The claim C5, as stated, fails on an empty line: with the lines `ab` and
the empty line and a budget of 1, the second line is drawn in full (nothing is
missing from it) although the first line is not. -/
theorem drawLines_empty_line_counterexample :
    ((drawLines (typingSkin 1) 0 0 0 (FillStyle.color DEFAULT_COLOR) emptyLastLines).map
        fun c => c.text) = [['a'], []] ∧
    (emptyLastLines.map fun l => l.text) = [['a', 'b'], []] ∧
    ((drawLines (typingSkin 1) 0 0 0 (FillStyle.color DEFAULT_COLOR) emptyLastLines).map
        fun c => c.text)[1]? = (emptyLastLines.map fun l => l.text)[1]? ∧
    ((drawLines (typingSkin 1) 0 0 0 (FillStyle.color DEFAULT_COLOR) emptyLastLines).map
        fun c => c.text)[0]? ≠ (emptyLastLines.map fun l => l.text)[0]? := by
  have h1 : ((drawLines (typingSkin 1) 0 0 0 (FillStyle.color DEFAULT_COLOR)
      emptyLastLines).map fun c => c.text) = [['a'], []] := by decide
  have h2 : (emptyLastLines.map fun l => l.text) = [['a', 'b'], []] := by decide
  refine ⟨h1, h2, ?_, ?_⟩
  · rw [h1, h2]; decide
  · rw [h1, h2]; decide

/-- C5 (amended): for every sequence of wrapped lines and every
visible-character budget, the texts drawn by the loop of `_renderAtScale`,
concatenated in line order, are the prefix of length `min budget total` of the
concatenated lines; each drawn text is a prefix of its line; a non-empty line
is drawn in full only when all lines before it are drawn in full; and a larger
budget never draws fewer characters on any line. -/
theorem drawLines_visible_prefix (s : TextCostumeSkin) (off : ℚ) (fs : FillStyle)
    (lines : List Line) :
    ((drawLines s off 0 0 fs lines).map fun c => c.text).flatten
        = visiblePrefix s.maxDisplayableCharacters (lines.map fun l => l.text).flatten ∧
    ∀ (k : Nat) (call : FillTextCall) (line : Line),
      (drawLines s off 0 0 fs lines)[k]? = some call → lines[k]? = some line →
      call.text <+: line.text ∧
      (call.text = line.text → line.text ≠ [] →
        ∀ (j : Nat) (callj : FillTextCall) (linej : Line), j < k →
          (drawLines s off 0 0 fs lines)[j]? = some callj → lines[j]? = some linej →
          callj.text = linej.text) ∧
      ∀ (s' : TextCostumeSkin) (call' : FillTextCall),
        budgetLE s.maxDisplayableCharacters s'.maxDisplayableCharacters →
        (drawLines s' off 0 0 fs lines)[k]? = some call' →
        call.text.length ≤ call'.text.length := by
  have key : ∀ (t : TextCostumeSkin) (k : Nat) (c : FillTextCall) (l : Line),
      (drawLines t off 0 0 fs lines)[k]? = some c → lines[k]? = some l →
      c.text = substringTo l.text
        (remainingCharacters t.maxDisplayableCharacters (charsBefore lines k)) := by
    intro t k c l hc hl
    have h := drawLines_getElem? t off lines 0 0 fs k
    rw [hc, hl] at h
    simp only [Option.map_some', Option.some.injEq, Prod.mk.injEq, Nat.zero_add] at h
    exact h.1
  refine ⟨?_, fun k call line hc hl => ⟨?_, ?_, ?_⟩⟩
  · rw [drawLines_flatten]
    cases hb : s.maxDisplayableCharacters with
    | none => rfl
    | some n => simp [visiblePrefix_some]
  · rw [key s k call line hc hl]
    cases hb : s.maxDisplayableCharacters with
    | none => exact List.prefix_refl _
    | some n => rw [substringTo_remaining_some]; exact List.take_prefix _ _
  · intro hfull hne j callj linej hjk hcj hlj
    rw [key s j callj linej hcj hlj]
    rw [key s k call line hc hl] at hfull
    cases hb : s.maxDisplayableCharacters with
    | none => rfl
    | some n =>
      rw [hb, substringTo_remaining_some] at hfull
      rw [substringTo_remaining_some]
      have h1 : line.text.length ≤ n - charsBefore lines k :=
        (List.take_eq_self_iff _).mp hfull
      have h2 : 0 < line.text.length := List.length_pos.mpr hne
      have h3 : charsBefore lines (j + 1) ≤ charsBefore lines k :=
        charsBefore_mono lines hjk
      rw [charsBefore_succ, hlj] at h3
      simp only [Option.map_some', Option.getD_some] at h3
      apply List.take_of_length_le
      omega
  · intro s' call' hle hc'
    rw [key s k call line hc hl, key s' k call' line hc' hl]
    cases hb : s.maxDisplayableCharacters with
    | none =>
      cases hb' : s'.maxDisplayableCharacters with
      | none => exact le_rfl
      | some n' => rw [hb, hb'] at hle; exact absurd hle (by simp [budgetLE])
    | some n =>
      cases hb' : s'.maxDisplayableCharacters with
      | none =>
        rw [substringTo_remaining_some, substringTo_remaining_none, List.length_take]
        exact min_le_right _ _
      | some n' =>
        rw [hb, hb'] at hle
        have hle' : n ≤ n' := hle
        rw [substringTo_remaining_some, substringTo_remaining_some, List.length_take,
          List.length_take]
        exact min_le_min (Nat.sub_le_sub_right hle' _) le_rfl

/-- Witness for C5: with the lines `Hello` and `world`, a budget of 7 draws
`Hello` and `wo`, which concatenate to the first 7 characters; the first line
is then drawn in full and the second is a prefix that grows with the budget. -/
theorem drawLines_visible_prefix_witness :
    ((drawLines (typingSkin 7) 0 0 0 (FillStyle.color DEFAULT_COLOR) helloWorldLines).map
        fun c => c.text) = ["Hello".toList, "wo".toList] ∧
    ((drawLines (typingSkin 7) 0 0 0 (FillStyle.color DEFAULT_COLOR) helloWorldLines).map
        fun c => c.text).flatten = visiblePrefix (some 7) "Helloworld".toList ∧
    "wo".toList <+: "world".toList ∧
    "wo".toList.length ≤ "world".toList.length := by
  obtain ⟨c0, c1, hc⟩ : ∃ c0 c1,
      drawLines (typingSkin 7) 0 0 0 (FillStyle.color DEFAULT_COLOR) helloWorldLines
        = [c0, c1] := ⟨_, _, rfl⟩
  obtain ⟨d0, d1, hd⟩ : ∃ d0 d1,
      drawLines (typingSkin 10) 0 0 0 (FillStyle.color DEFAULT_COLOR) helloWorldLines
        = [d0, d1] := ⟨_, _, rfl⟩
  have ht : ((drawLines (typingSkin 7) 0 0 0 (FillStyle.color DEFAULT_COLOR)
      helloWorldLines).map fun c => c.text) = ["Hello".toList, "wo".toList] := by decide
  have ht' : ((drawLines (typingSkin 10) 0 0 0 (FillStyle.color DEFAULT_COLOR)
      helloWorldLines).map fun c => c.text) = ["Hello".toList, "world".toList] := by decide
  have hc1 : c1.text = "wo".toList := by
    rw [hc] at ht; simpa using (List.cons.inj (List.cons.inj ht).2).1
  have hc0 : c0.text = "Hello".toList := by
    rw [hc] at ht; simpa using (List.cons.inj ht).1
  have hd1 : d1.text = "world".toList := by
    rw [hd] at ht'; simpa using (List.cons.inj (List.cons.inj ht').2).1
  obtain ⟨hflat, hk⟩ := drawLines_visible_prefix (typingSkin 7) 0
    (FillStyle.color DEFAULT_COLOR) helloWorldLines
  obtain ⟨hpre1, -, hmono⟩ := hk 1 c1 { text := "world".toList, width := 52 }
    (by rw [hc]; rfl) rfl
  obtain ⟨-, hfull, -⟩ := hk 0 c0 { text := "Hello".toList, width := 50 }
    (by rw [hc]; rfl) rfl
  have hnone := hfull hc0 (by decide)
  have hm := hmono (typingSkin 10) d1 (by show (7 : Nat) ≤ 10; decide) (by rw [hd]; rfl)
  rw [hc1] at hpre1
  rw [hc1, hd1] at hm
  exact ⟨ht, hflat, hpre1, hm⟩

/-! ### The rainbow gradient -/

theorem addRainbowStopWith_eq (fl : ℚ → ℚ) (offset : ℚ) (g : CanvasGradient) (i : Nat) :
    addRainbowStopWith fl offset g i
      = { g with stops := g.stops ++ [rainbowStopWith fl offset i, rainbowStopWith fl offset i] } := by
  simp [addRainbowStopWith, CanvasGradient.addColorStop, rainbowStopWith, NUMBER_STOPS]

theorem foldl_addRainbowStopWith (fl : ℚ → ℚ) (offset : ℚ) (l : List Nat) :
    ∀ g : CanvasGradient,
      l.foldl (addRainbowStopWith fl offset) g
        = { g with stops := g.stops ++
              l.flatMap fun i => [rainbowStopWith fl offset i, rainbowStopWith fl offset i] } := by
  induction l with
  | nil => intro g; simp
  | cons i rest ih =>
    intro g
    rw [List.foldl_cons, ih, addRainbowStopWith_eq]
    simp [List.flatMap_cons, List.append_assoc]

/-- The stops `addRainbowStops` adds, whatever the rounding: two for each of
the indices 0 to 19. -/
theorem addRainbowStopsWith_stops (fl : ℚ → ℚ) (g : CanvasGradient) (offset : ℚ) :
    (addRainbowStopsWith fl g offset).stops
      = g.stops ++ (List.range 20).flatMap fun i =>
          [rainbowStopWith fl offset i, rainbowStopWith fl offset i] := by
  unfold addRainbowStopsWith
  rw [foldl_addRainbowStopWith]
  rfl

theorem length_flatMap_pair (f : Nat → ℚ × String) (l : List Nat) :
    (l.flatMap fun i => [f i, f i]).length = 2 * l.length := by
  induction l with
  | nil => rfl
  | cons i rest ih =>
    rw [List.flatMap_cons, List.length_append, ih, List.length_cons]
    simp only [List.length_cons, List.length_nil]
    omega

theorem mem_addRainbowStopsWith (fl : ℚ → ℚ) (g : CanvasGradient) (offset : ℚ)
    (stop : ℚ × String) :
    stop ∈ (addRainbowStopsWith fl g offset).stops ↔
      stop ∈ g.stops ∨ ∃ i : Nat, i < 20 ∧ stop = rainbowStopWith fl offset i := by
  rw [addRainbowStopsWith_stops]
  simp only [List.mem_append, List.mem_flatMap, List.mem_range, List.mem_cons,
    List.mem_singleton, or_self, List.not_mem_nil, or_false]

theorem jsMod1_bounds (y : ℚ) : -1 < jsMod1 y ∧ jsMod1 y < 1 := by
  unfold jsMod1 jsTrunc
  have hf1 := Int.floor_le y
  have hf2 := Int.lt_floor_add_one y
  have hc1 := Int.le_ceil y
  have hc2 := Int.ceil_lt_add_one y
  by_cases h0 : 0 ≤ y
  · simp only [h0, if_true]
    constructor <;> linarith
  · simp only [h0, if_false]
    constructor <;> linarith

/-- In exact arithmetic the remainder `% 1` with the sign fixed is the fractional part. -/
theorem offsetPositionWith_id (x offset : ℚ) :
    offsetPositionWith id x offset = Int.fract (x - offset) := by
  unfold offsetPositionWith jsMod1 jsTrunc
  simp only [id]
  generalize x - offset = y
  have hf1 := Int.floor_le y
  have hf2 := Int.lt_floor_add_one y
  have hc1 := Int.le_ceil y
  have hc2 := Int.ceil_lt_add_one y
  by_cases h0 : 0 ≤ y
  · simp only [h0, if_true]
    have : ¬ (y - (⌊y⌋ : ℚ) < 0) := by linarith
    simp only [this, if_false]
    rfl
  · simp only [h0, if_false]
    by_cases hr : y - (⌈y⌉ : ℚ) < 0
    · simp only [hr, if_true]
      have h1 : (⌊y⌋ : ℚ) < (⌈y⌉ : ℚ) := by linarith
      have h2 : (⌈y⌉ : ℚ) < (⌊y⌋ : ℚ) + 2 := by linarith
      have h1' : ⌊y⌋ < ⌈y⌉ := by exact_mod_cast h1
      have h2' : ⌈y⌉ < ⌊y⌋ + 2 := by exact_mod_cast h2
      have h3 : ⌈y⌉ = ⌊y⌋ + 1 := by omega
      rw [h3]
      unfold Int.fract
      push_cast
      ring
    · simp only [hr, if_false]
      have h4 : y = (⌈y⌉ : ℚ) := by linarith
      have h5 : Int.fract y = 0 := by
        rw [h4]; exact Int.fract_intCast _
      rw [h5]
      linarith

theorem rainbowStopWith_id (t : ℚ) (i : Nat) :
    rainbowStopWith id (t / 1000) i
      = ((i : ℚ) / 20, formatColor (hsvToRGBWith id (rainbowHue t i) 1 1)) := by
  simp [rainbowStopWith, rainbowHue, offsetPositionWith_id]

theorem rainbowHue_periodic (t : ℚ) (i : Nat) : rainbowHue (t + 1000) i = rainbowHue t i := by
  unfold rainbowHue
  have : (i : ℚ) / 20 - (t + 1000) / 1000 = (i : ℚ) / 20 - t / 1000 - 1 := by ring
  rw [this, Int.fract_sub_one]

theorem roundHalfEven_nonneg {z : ℚ} (hz : 0 ≤ z) : 0 ≤ roundHalfEven z := by
  have h : 0 ≤ ⌊z⌋ := Int.floor_nonneg.mpr hz
  unfold roundHalfEven
  simp only
  split_ifs <;> omega

theorem roundHalfEven_le {z : ℚ} {N : ℤ} (hz : z ≤ N) : roundHalfEven z ≤ N := by
  have h1 : (⌊z⌋ : ℚ) ≤ z := Int.floor_le z
  have h2 : ⌊z⌋ ≤ N := by
    have : (⌊z⌋ : ℚ) ≤ (N : ℚ) := le_trans h1 hz
    exact_mod_cast this
  unfold roundHalfEven
  simp only
  by_cases hr : z - (⌊z⌋ : ℚ) < 1 / 2
  · simp only [hr, if_true]
    exact h2
  · have h3 : (⌊z⌋ : ℚ) < (N : ℚ) := by linarith
    have h4 : ⌊z⌋ < N := by exact_mod_cast h3
    simp only [hr, if_false]
    split_ifs <;> omega

theorem log2Fuel_eq_log (fuel : Nat) : ∀ n : Nat, n ≤ fuel → log2Fuel fuel n = Nat.log 2 n := by
  induction fuel with
  | zero =>
    intro n hn
    have : n = 0 := Nat.le_zero.mp hn
    subst this
    simp [log2Fuel]
  | succ fuel ih =>
    intro n hn
    unfold log2Fuel
    by_cases h2 : n < 2
    · simp only [h2, if_true]
      exact (Nat.log_of_lt h2).symm
    · simp only [h2, if_false]
      have hdiv : n / 2 ≤ fuel := by omega
      rw [ih (n / 2) hdiv, Nat.log_div_base]
      have hpos : 0 < Nat.log 2 n := Nat.log_pos (by norm_num) (by omega)
      omega

/-- The exponent found by `floorLog2` brackets a positive rational between
two consecutive powers of two. -/
theorem floorLog2_spec {x : ℚ} (hx : 0 < x) :
    (2 : ℚ) ^ floorLog2 x ≤ x ∧ x < (2 : ℚ) ^ (floorLog2 x + 1) := by
  have hnum : 0 < x.num := Rat.num_pos.mpr hx
  have hp0 : x.num.natAbs ≠ 0 := by omega
  have hq0 : x.den ≠ 0 := x.den_nz
  have hpq : x = (x.num.natAbs : ℚ) / (x.den : ℚ) := by
    have h1 : ((x.num.natAbs : ℤ) : ℚ) = (x.num : ℚ) := by
      rw [Int.natAbs_of_nonneg hnum.le]
    have h2 : (x.num : ℚ) / (x.den : ℚ) = x := Rat.num_div_den x
    rw [← Int.cast_natCast, h1, h2]
  have hqpos : (0 : ℚ) < (x.den : ℚ) := by exact_mod_cast Nat.pos_of_ne_zero hq0
  have ha1 : (2 : ℚ) ^ Nat.log 2 x.num.natAbs ≤ (x.num.natAbs : ℚ) := by
    exact_mod_cast Nat.pow_log_le_self 2 hp0
  have ha2 : (x.num.natAbs : ℚ) < (2 : ℚ) ^ (Nat.log 2 x.num.natAbs + 1) := by
    exact_mod_cast Nat.lt_pow_succ_log_self (by norm_num) x.num.natAbs
  have hb1 : (2 : ℚ) ^ Nat.log 2 x.den ≤ (x.den : ℚ) := by
    exact_mod_cast Nat.pow_log_le_self 2 hq0
  have hb2 : (x.den : ℚ) < (2 : ℚ) ^ (Nat.log 2 x.den + 1) := by
    exact_mod_cast Nat.lt_pow_succ_log_self (by norm_num) x.den
  have h2 : (2 : ℚ) ≠ 0 := by norm_num
  have hA : (0 : ℚ) < (2 : ℚ) ^ Nat.log 2 x.num.natAbs := pow_pos (by norm_num) _
  have hB : (0 : ℚ) < (2 : ℚ) ^ Nat.log 2 x.den := pow_pos (by norm_num) _
  have hlow : (2 : ℚ) ^ ((Nat.log 2 x.num.natAbs : ℤ) - (Nat.log 2 x.den : ℤ) - 1) ≤ x := by
    have : (2 : ℚ) ^ ((Nat.log 2 x.num.natAbs : ℤ) - (Nat.log 2 x.den : ℤ) - 1)
        = (2 : ℚ) ^ Nat.log 2 x.num.natAbs / (2 : ℚ) ^ (Nat.log 2 x.den + 1) := by
      rw [show ((Nat.log 2 x.num.natAbs : ℤ) - (Nat.log 2 x.den : ℤ) - 1)
          = (Nat.log 2 x.num.natAbs : ℤ) - ((Nat.log 2 x.den + 1 : ℕ) : ℤ) by push_cast; ring,
        zpow_sub₀ h2, zpow_natCast, zpow_natCast]
    have key : (2 : ℚ) ^ Nat.log 2 x.num.natAbs / (2 : ℚ) ^ (Nat.log 2 x.den + 1)
        ≤ (x.num.natAbs : ℚ) / (x.den : ℚ) := by
      rw [div_le_div_iff₀ (pow_pos (by norm_num) _) hqpos]
      calc (2 : ℚ) ^ Nat.log 2 x.num.natAbs * (x.den : ℚ)
          ≤ (x.num.natAbs : ℚ) * (x.den : ℚ) := mul_le_mul_of_nonneg_right ha1 hqpos.le
        _ ≤ (x.num.natAbs : ℚ) * (2 : ℚ) ^ (Nat.log 2 x.den + 1) :=
            mul_le_mul_of_nonneg_left hb2.le (by positivity)
    rw [this]
    exact le_of_le_of_eq key hpq.symm
  have hup : x < (2 : ℚ) ^ ((Nat.log 2 x.num.natAbs : ℤ) - (Nat.log 2 x.den : ℤ) + 1) := by
    have : (2 : ℚ) ^ ((Nat.log 2 x.num.natAbs : ℤ) - (Nat.log 2 x.den : ℤ) + 1)
        = (2 : ℚ) ^ (Nat.log 2 x.num.natAbs + 1) / (2 : ℚ) ^ Nat.log 2 x.den := by
      rw [show ((Nat.log 2 x.num.natAbs : ℤ) - (Nat.log 2 x.den : ℤ) + 1)
          = ((Nat.log 2 x.num.natAbs + 1 : ℕ) : ℤ) - (Nat.log 2 x.den : ℤ) by push_cast; ring,
        zpow_sub₀ h2, zpow_natCast, zpow_natCast]
    have key : (x.num.natAbs : ℚ) / (x.den : ℚ)
        < (2 : ℚ) ^ (Nat.log 2 x.num.natAbs + 1) / (2 : ℚ) ^ Nat.log 2 x.den := by
      rw [div_lt_div_iff₀ hqpos hB]
      calc (x.num.natAbs : ℚ) * (2 : ℚ) ^ Nat.log 2 x.den
          ≤ (x.num.natAbs : ℚ) * (x.den : ℚ) := mul_le_mul_of_nonneg_left hb1 (by positivity)
        _ < (2 : ℚ) ^ (Nat.log 2 x.num.natAbs + 1) * (x.den : ℚ) :=
            mul_lt_mul_of_pos_right ha2 hqpos
    rw [this]
    exact lt_of_eq_of_lt hpq key
  unfold floorLog2
  simp only [log2Fuel_eq_log _ _ le_rfl]
  by_cases hlt : x < (2 : ℚ) ^ ((Nat.log 2 x.num.natAbs : ℤ) - (Nat.log 2 x.den : ℤ))
  · simp only [hlt, if_true]
    refine ⟨hlow, ?_⟩
    rw [sub_add_cancel]
    exact hlt
  · simp only [hlt, if_false]
    exact ⟨not_lt.mp hlt, hup⟩

/-- Rounding a number strictly between 0 and 1 to a double stays between 0
and 1; the result can be 1 itself. -/
theorem toDouble_unit {y : ℚ} (h0 : 0 < y) (h1 : y < 1) : 0 ≤ toDouble y ∧ toDouble y ≤ 1 := by
  obtain ⟨hlow, hup⟩ := floorLog2_spec h0
  have hlog : floorLog2 y < 0 := by
    by_contra hcon
    have h2 : (1 : ℚ) ≤ 2 ^ floorLog2 y := by
      have := zpow_le_zpow_right₀ (a := (2 : ℚ)) (by norm_num) (not_lt.mp hcon)
      simpa using this
    linarith
  have he : max (floorLog2 y) (-1022) ≤ -1 := max_le (by omega) (by norm_num)
  have hle : floorLog2 y ≤ max (floorLog2 y) (-1022) := le_max_left _ _
  have hulp : (0 : ℚ) < 2 ^ (max (floorLog2 y) (-1022) - 52) := zpow_pos (by norm_num) _
  have htop : (2 : ℚ) ^ (max (floorLog2 y) (-1022) + 1)
      = ((2 ^ 53 : ℤ) : ℚ) * 2 ^ (max (floorLog2 y) (-1022) - 52) := by
    have : max (floorLog2 y) (-1022) + 1 = 53 + (max (floorLog2 y) (-1022) - 52) := by ring
    rw [this, zpow_add₀ (by norm_num : (2 : ℚ) ≠ 0)]
    norm_num
  have hy : y < (2 : ℚ) ^ (max (floorLog2 y) (-1022) + 1) :=
    lt_of_lt_of_le hup (zpow_le_zpow_right₀ (by norm_num) (by omega))
  have hq : y / 2 ^ (max (floorLog2 y) (-1022) - 52) ≤ ((2 ^ 53 : ℤ) : ℚ) := by
    rw [div_le_iff₀ hulp, ← htop]
    exact hy.le
  have hR1 := roundHalfEven_le hq
  have hR0 : 0 ≤ roundHalfEven (y / 2 ^ (max (floorLog2 y) (-1022) - 52)) :=
    roundHalfEven_nonneg (div_nonneg h0.le hulp.le)
  have hone : (2 : ℚ) ^ (max (floorLog2 y) (-1022) + 1) ≤ 1 :=
    zpow_le_one_of_nonpos₀ (by norm_num) (by omega)
  unfold toDouble
  simp only [h0.ne', if_false, abs_of_pos h0]
  constructor
  · exact mul_nonneg (by exact_mod_cast hR0) hulp.le
  · calc (roundHalfEven (y / 2 ^ (max (floorLog2 y) (-1022) - 52)) : ℚ)
          * 2 ^ (max (floorLog2 y) (-1022) - 52)
        ≤ ((2 ^ 53 : ℤ) : ℚ) * 2 ^ (max (floorLog2 y) (-1022) - 52) :=
          mul_le_mul_of_nonneg_right (by exact_mod_cast hR1) hulp.le
      _ = (2 : ℚ) ^ (max (floorLog2 y) (-1022) + 1) := htop.symm
      _ ≤ 1 := hone

/-- The hue the code computes lies between 0 and 1, both included. -/
theorem offsetPosition_unit (x offset : ℚ) :
    0 ≤ offsetPosition x offset ∧ offsetPosition x offset ≤ 1 := by
  unfold offsetPosition offsetPositionWith
  have hb := jsMod1_bounds (toDouble (x - offset))
  by_cases hr : jsMod1 (toDouble (x - offset)) < 0
  · simp only [hr, if_true]
    exact toDouble_unit (by linarith) (by linarith)
  · simp only [hr, if_false]
    exact ⟨not_lt.mp hr, hb.2.le⟩

/-- The claim C10, as stated, fails in the doubles the code computes with: the
colours of the stops at elapsed times 0 and 1000 ms differ at the positions
2/20, 4/20 and 6/20 (by one unit of a channel), so the stops are not periodic;
and for an offset of `2 ^ (-60)` cycles the hue of the first stop is rounded to
1, outside `[0, 1)`. -/
theorem addRainbowStops_period_counterexample :
    ((addRainbowStops emptyGradient (toDouble (0 / 1000))).stops.map Prod.snd)
      = (["#ff0000", "#ff4c00", "#ff9900", "#ffe500", "#cbff00", "#7fff00", "#33ff00",
          "#00ff19", "#00ff66", "#00ffb2", "#00ffff", "#00b2ff", "#0066ff", "#0019ff",
          "#3200ff", "#7f00ff", "#cc00ff", "#ff00e5", "#ff0098", "#ff004c"].flatMap
          fun c => [c, c]) ∧
    ((addRainbowStops emptyGradient (toDouble ((0 + 1000) / 1000))).stops.map Prod.snd)
      = (["#ff0000", "#ff4c00", "#ff9800", "#ffe500", "#ccff00", "#7fff00", "#32ff00",
          "#00ff19", "#00ff66", "#00ffb2", "#00ffff", "#00b2ff", "#0066ff", "#0019ff",
          "#3200ff", "#7f00ff", "#cc00ff", "#ff00e5", "#ff0098", "#ff004c"].flatMap
          fun c => [c, c]) ∧
    addRainbowStops emptyGradient (toDouble ((0 + 1000) / 1000))
      ≠ addRainbowStops emptyGradient (toDouble (0 / 1000)) ∧
    offsetPosition (toDouble (0 / 20)) (toDouble (1 / 2 ^ 60)) = 1 := by
  have h0 : ((addRainbowStops emptyGradient (toDouble (0 / 1000))).stops.map Prod.snd)
      = (["#ff0000", "#ff4c00", "#ff9900", "#ffe500", "#cbff00", "#7fff00", "#33ff00",
          "#00ff19", "#00ff66", "#00ffb2", "#00ffff", "#00b2ff", "#0066ff", "#0019ff",
          "#3200ff", "#7f00ff", "#cc00ff", "#ff00e5", "#ff0098", "#ff004c"].flatMap
          fun c => [c, c]) := by decide!
  have h1 : ((addRainbowStops emptyGradient (toDouble ((0 + 1000) / 1000))).stops.map Prod.snd)
      = (["#ff0000", "#ff4c00", "#ff9800", "#ffe500", "#ccff00", "#7fff00", "#32ff00",
          "#00ff19", "#00ff66", "#00ffb2", "#00ffff", "#00b2ff", "#0066ff", "#0019ff",
          "#3200ff", "#7f00ff", "#cc00ff", "#ff00e5", "#ff0098", "#ff004c"].flatMap
          fun c => [c, c]) := by decide!
  have h2 : offsetPosition (toDouble (0 / 20)) (toDouble (1 / 2 ^ 60)) = 1 := by decide!
  refine ⟨h0, h1, ?_, h2⟩
  intro heq
  rw [heq, h0] at h1
  exact absurd h1 (by decide!)

/-- C10 (amended): for every offset, `addRainbowStops` adds 40 colour stops, two
at each of the 20 positions `i / 20` (as doubles) for `i = 0..19`; every stop
it adds at position `i / 20` has the colour `formatColor (hsvToRGB h 1 1)` for
the hue `h` the code computes in doubles from `(i / 20 − offset) % 1`, which
lies between 0 and 1. In exact rational arithmetic, at offset `t / 1000`, that
hue is `(i / 20 − t / 1000) mod 1` taken in `[0, 1)` and the stops are the same
for `t` and for `t + 1000`; in doubles they agree only up to rounding. -/
theorem addRainbowStops_spec (gradient : CanvasGradient) (offset t : ℚ) :
    (∀ stop : ℚ × String,
      stop ∈ (addRainbowStops gradient offset).stops ↔
        stop ∈ gradient.stops ∨
        ∃ i : Nat, i < 20 ∧
          stop = (toDouble ((i : ℚ) / 20),
            formatColor (hsvToRGB (offsetPosition (toDouble ((i : ℚ) / 20)) offset) 1 1))) ∧
    (addRainbowStops gradient offset).stops.length = gradient.stops.length + 40 ∧
    (∀ i : Nat, 0 ≤ offsetPosition (toDouble ((i : ℚ) / 20)) offset ∧
      offsetPosition (toDouble ((i : ℚ) / 20)) offset ≤ 1) ∧
    (∀ stop : ℚ × String,
      stop ∈ (addRainbowStopsWith id gradient (t / 1000)).stops ↔
        stop ∈ gradient.stops ∨
        ∃ i : Nat, i < 20 ∧
          stop = ((i : ℚ) / 20, formatColor (hsvToRGBWith id (rainbowHue t i) 1 1))) ∧
    (∀ i : Nat, 0 ≤ rainbowHue t i ∧ rainbowHue t i < 1 ∧
      ∃ n : ℤ, (i : ℚ) / 20 - t / 1000 = n + rainbowHue t i) ∧
    addRainbowStopsWith id gradient ((t + 1000) / 1000)
      = addRainbowStopsWith id gradient (t / 1000) := by
  refine ⟨fun stop => ?_, ?_, fun i => offsetPosition_unit _ _, fun stop => ?_,
    fun i => ⟨Int.fract_nonneg _, Int.fract_lt_one _, ?_⟩, ?_⟩
  · exact mem_addRainbowStopsWith toDouble gradient offset stop
  · unfold addRainbowStops
    rw [addRainbowStopsWith_stops, List.length_append, length_flatMap_pair]
    rfl
  · rw [mem_addRainbowStopsWith]
    simp only [rainbowStopWith_id]
  · exact ⟨⌊(i : ℚ) / 20 - t / 1000⌋, (Int.floor_add_fract _).symm⟩
  · unfold addRainbowStopsWith
    rw [foldl_addRainbowStopWith, foldl_addRainbowStopWith]
    have : ∀ i, rainbowStopWith id ((t + 1000) / 1000) i = rainbowStopWith id (t / 1000) i := by
      intro i
      rw [rainbowStopWith_id, rainbowStopWith_id, rainbowHue_periodic]
    simp [this]

/-- Witness for C10: a quarter of a cycle into the rainbow (250 ms) the stop at
position 5/20 is pure red, in doubles and in exact arithmetic alike, and 40
stops have been added to an empty gradient. -/
theorem addRainbowStops_spec_witness :
    ((1 / 4 : ℚ), "#ff0000") ∈ (addRainbowStops emptyGradient (toDouble (250 / 1000))).stops ∧
    ((1 / 4 : ℚ), "#ff0000") ∈ (addRainbowStopsWith id emptyGradient (250 / 1000)).stops ∧
    (addRainbowStops emptyGradient (toDouble (250 / 1000))).stops.length = 40 := by
  obtain ⟨h1, h2, -, h3, -, -⟩ :=
    addRainbowStops_spec emptyGradient (toDouble (250 / 1000)) 250
  refine ⟨(h1 _).mpr (Or.inr ⟨5, by norm_num, by decide!⟩),
    (h3 _).mpr (Or.inr ⟨5, by norm_num, by decide!⟩), ?_⟩
  rw [h2]
  rfl

/-! ### The animation state machine: cancelling -/

theorem cancelAnimation_skin (w : World) :
    (cancelAnimation w).skin
      = { w.skin with maxDisplayableCharacters := none, isRainbow := false, isZooming := false } := by
  unfold cancelAnimation
  cases h : w.skin.resolveOngoingAnimation <;>
    cases h1 : w.skin.typeAnimationInterval <;>
    cases h2 : w.skin.rainbowTimeout <;>
    cases h3 : w.skin.zoomTimeout <;>
    simp [clearTimer, callResolve, emitWasAltered, h1, h2, h3]

theorem cancelAnimation_timers (w : World) :
    (cancelAnimation w).host.timers
      = ((w.host.timers.filter fun t => decide (some t.id ≠ w.skin.typeAnimationInterval)).filter
          fun t => decide (some t.id ≠ w.skin.rainbowTimeout)).filter
          fun t => decide (some t.id ≠ w.skin.zoomTimeout) := by
  unfold cancelAnimation
  cases h : w.skin.resolveOngoingAnimation <;>
    cases h1 : w.skin.typeAnimationInterval <;>
    cases h2 : w.skin.rainbowTimeout <;>
    cases h3 : w.skin.zoomTimeout <;>
    simp [clearTimer, callResolve, emitWasAltered, h1, h2, h3]

theorem cancelAnimation_fulfilled (w : World) :
    (cancelAnimation w).host.fulfilled
      = match w.skin.resolveOngoingAnimation with
        | none => w.host.fulfilled
        | some p => if p ∈ w.host.fulfilled then w.host.fulfilled else w.host.fulfilled ++ [p] := by
  unfold cancelAnimation
  cases h : w.skin.resolveOngoingAnimation <;>
    cases h1 : w.skin.typeAnimationInterval <;>
    cases h2 : w.skin.rainbowTimeout <;>
    cases h3 : w.skin.zoomTimeout <;>
    simp [clearTimer, callResolve, emitWasAltered, h1, h2, h3]

theorem cancelAnimation_resolveCalls (w : World) :
    (cancelAnimation w).host.resolveCalls
      = match w.skin.resolveOngoingAnimation with
        | none => w.host.resolveCalls
        | some p => w.host.resolveCalls ++ [p] := by
  unfold cancelAnimation
  cases h : w.skin.resolveOngoingAnimation <;>
    cases h1 : w.skin.typeAnimationInterval <;>
    cases h2 : w.skin.rainbowTimeout <;>
    cases h3 : w.skin.zoomTimeout <;>
    simp [clearTimer, callResolve, emitWasAltered, h1, h2, h3]

theorem cancelAnimation_counters (w : World) :
    (cancelAnimation w).host.nextPromise = w.host.nextPromise ∧
    (cancelAnimation w).host.nextTimerId = w.host.nextTimerId := by
  unfold cancelAnimation
  cases h : w.skin.resolveOngoingAnimation <;>
    cases h1 : w.skin.typeAnimationInterval <;>
    cases h2 : w.skin.rainbowTimeout <;>
    cases h3 : w.skin.zoomTimeout <;>
    simp [clearTimer, callResolve, emitWasAltered, h1, h2, h3]

theorem idle_iff (s : TextCostumeSkin) :
    s.idle = true ↔
      s.maxDisplayableCharacters = none ∧ s.isRainbow = false ∧ s.isZooming = false := by
  unfold TextCostumeSkin.idle TextCostumeSkin.typing
  cases s.maxDisplayableCharacters <;> cases s.isRainbow <;> cases s.isZooming <;> simp

theorem cancelAnimation_idle (w : World) : (cancelAnimation w).skin.idle = true := by
  rw [cancelAnimation_skin]
  rfl

theorem cancelAnimation_ongoing (w : World) :
    (cancelAnimation w).skin.resolveOngoingAnimation = w.skin.resolveOngoingAnimation := by
  rw [cancelAnimation_skin]

/-- Cancelling a settled world changes neither its timers nor its promises. -/
theorem cancelAnimation_of_settled {w : World} (hi : Inv w) (hs : w.settled) :
    (cancelAnimation w).host.timers = [] ∧
      (cancelAnimation w).host.fulfilled = w.host.fulfilled := by
  obtain ⟨ht, -, hall⟩ := hs
  refine ⟨by rw [cancelAnimation_timers, ht]; rfl, ?_⟩
  rw [cancelAnimation_fulfilled]
  cases h : w.skin.resolveOngoingAnimation with
  | none => rfl
  | some p =>
    have hp : p ∈ w.host.fulfilled := hall p (by have := hi.ongoing p h; omega)
    simp [hp]

/-- Cancelling an animation in progress clears its timer and fulfils its promise. -/
theorem cancelAnimation_of_inProgress {w : World} {t : Timer} (hp : w.inProgress t) :
    (cancelAnimation w).host.timers = [] ∧
      (cancelAnimation w).host.fulfilled = w.host.fulfilled ++ [t.resolve] := by
  obtain ⟨ht, ha, ho, hn, -⟩ := hp
  constructor
  · rw [cancelAnimation_timers, ht]
    apply List.eq_nil_iff_forall_not_mem.mpr
    intro x hx
    simp only [List.mem_filter, List.mem_singleton, decide_eq_true_eq] at hx
    obtain ⟨⟨⟨hxt, h1⟩, h2⟩, h3⟩ := hx
    subst hxt
    unfold TextCostumeSkin.animating at ha
    cases hk : x.kind <;> rw [hk] at ha <;> simp only at ha
    · exact h1 ha.1.symm
    · exact h2 ha.1.symm
    · exact h3 ha.1.symm
  · rw [cancelAnimation_fulfilled, ho]
    simp [hn]

/-- A world that differs from one with an animation in progress by the timer
being gone, the skin idle and the promise fulfilled is settled. -/
theorem inv_of_finished {w a : World} {t : Timer} (hi : Inv w) (hp : w.inProgress t)
    (ht : a.host.timers = []) (hidle : a.skin.idle = true)
    (hf : a.host.fulfilled = w.host.fulfilled ++ [t.resolve])
    (hrc : a.host.resolveCalls = w.host.resolveCalls ++ [t.resolve])
    (hn : a.host.nextPromise = w.host.nextPromise)
    (ho : a.skin.resolveOngoingAnimation = w.skin.resolveOngoingAnimation) :
    Inv a ∧ a.settled := by
  have hnext : t.resolve + 1 = w.host.nextPromise := hi.ongoing _ hp.2.2.1
  have hset : a.settled := by
    refine ⟨ht, hidle, ?_⟩
    intro p hlt
    rw [hf, List.mem_append, List.mem_singleton]
    rw [hn] at hlt
    rcases Nat.lt_or_ge p t.resolve with h | h
    · exact Or.inl (hp.2.2.2.2 p h)
    · exact Or.inr (by omega)
  refine ⟨⟨?_, ?_, ?_, ?_, Or.inl hset⟩, hset⟩
  · rw [hf]
    exact List.Nodup.append hi.nodup (List.nodup_singleton _)
      (by
        intro q hq hq'
        rw [List.mem_singleton] at hq'
        subst hq'
        exact hp.2.2.2.1 hq)
  · intro p hmem
    rw [hf, List.mem_append, List.mem_singleton] at hmem
    rw [hn]
    rcases hmem with h | h
    · exact hi.bound p h
    · omega
  · rw [ho, hn]
    exact hi.ongoing
  · intro p
    rw [hf, hrc]
    simp only [List.mem_append, List.mem_singleton, hi.logged p]

theorem inv_cancelAnimation {w : World} (hi : Inv w) :
    Inv (cancelAnimation w) ∧ (cancelAnimation w).settled := by
  have hc := cancelAnimation_counters w
  rcases hi.shape with hs | ⟨t, hp⟩
  · obtain ⟨ht, hf⟩ := cancelAnimation_of_settled hi hs
    have hset : (cancelAnimation w).settled :=
      ⟨ht, cancelAnimation_idle w, by rw [hf, hc.1]; exact hs.2.2⟩
    refine ⟨⟨by rw [hf]; exact hi.nodup, by rw [hf, hc.1]; exact hi.bound, ?_, ?_,
      Or.inl hset⟩, hset⟩
    · rw [cancelAnimation_ongoing, hc.1]
      exact hi.ongoing
    · intro p
      rw [hf, cancelAnimation_resolveCalls]
      cases h : w.skin.resolveOngoingAnimation with
      | none => exact hi.logged p
      | some q =>
        have hq : q ∈ w.host.fulfilled := hs.2.2 q (by have := hi.ongoing q h; omega)
        simp only [List.mem_append, List.mem_singleton]
        constructor
        · rintro (h1 | h1)
          · exact (hi.logged p).mp h1
          · rw [h1]; exact hq
        · intro h1; exact Or.inl ((hi.logged p).mpr h1)
  · obtain ⟨ht, hf⟩ := cancelAnimation_of_inProgress hp
    refine inv_of_finished hi hp ht (cancelAnimation_idle w) hf ?_ hc.1
      (cancelAnimation_ongoing w)
    rw [cancelAnimation_resolveCalls, hp.2.2.1]

/-! ### The animation state machine: starting -/

/-- A world that differs from a settled one by one new promise and one new
timer for it satisfies the invariant, with that timer's animation in progress. -/
theorem inv_of_started {c a : World} {t : Timer} (hi : Inv c) (hs : c.settled)
    (ht : a.host.timers = [t]) (hf : a.host.fulfilled = c.host.fulfilled)
    (hrc : a.host.resolveCalls = c.host.resolveCalls)
    (hn : a.host.nextPromise = c.host.nextPromise + 1)
    (ho : a.skin.resolveOngoingAnimation = some c.host.nextPromise)
    (hr : t.resolve = c.host.nextPromise) (ha : a.skin.animating t) :
    Inv a ∧ a.inProgress t := by
  have hnot : t.resolve ∉ a.host.fulfilled := by
    rw [hf, hr]
    intro hmem
    exact absurd (hi.bound _ hmem) (lt_irrefl _)
  have hprog : a.inProgress t :=
    ⟨ht, ha, by rw [ho, hr], hnot, by rw [hf, hr]; exact hs.2.2⟩
  refine ⟨⟨by rw [hf]; exact hi.nodup, ?_, ?_, by rw [hf, hrc]; exact hi.logged,
    Or.inr ⟨t, hprog⟩⟩, hprog⟩
  · intro p hmem
    rw [hf] at hmem
    have := hi.bound p hmem
    omega
  · intro p hp
    rw [ho] at hp
    have : c.host.nextPromise = p := Option.some.inj hp
    omega

theorem newAnimation_beginType {c : World} (hi : Inv c) (hs : c.settled) :
    Inv (newAnimation beginType c).1 ∧
    (newAnimation beginType c).1.inProgress
      { id := c.host.nextTimerId, kind := TimerKind.typeTick, resolve := c.host.nextPromise } ∧
    (newAnimation beginType c).1.host.fulfilled = c.host.fulfilled ∧
    (newAnimation beginType c).2 = c.host.nextPromise := by
  have hidle := (idle_iff c.skin).mp hs.2.1
  have h := inv_of_started (a := (newAnimation beginType c).1)
    (t := { id := c.host.nextTimerId, kind := TimerKind.typeTick, resolve := c.host.nextPromise })
    hi hs (by simp [newAnimation, beginType, setTimer, hs.1]) rfl rfl rfl rfl rfl
    (by simp [TextCostumeSkin.animating, newAnimation, beginType, setTimer, hidle.2.1, hidle.2.2])
  exact ⟨h.1, h.2, rfl, rfl⟩

theorem newAnimation_beginRainbow (now : ℤ) {c : World} (hi : Inv c) (hs : c.settled) :
    Inv (newAnimation (beginRainbow now) c).1 ∧
    (newAnimation (beginRainbow now) c).1.inProgress
      { id := c.host.nextTimerId, kind := TimerKind.rainbowEnd, resolve := c.host.nextPromise } ∧
    (newAnimation (beginRainbow now) c).1.host.fulfilled = c.host.fulfilled ∧
    (newAnimation (beginRainbow now) c).2 = c.host.nextPromise := by
  have hidle := (idle_iff c.skin).mp hs.2.1
  have h := inv_of_started (a := (newAnimation (beginRainbow now) c).1)
    (t := { id := c.host.nextTimerId, kind := TimerKind.rainbowEnd, resolve := c.host.nextPromise })
    hi hs (by simp [newAnimation, beginRainbow, setTimer, hs.1]) rfl rfl rfl rfl rfl
    (by simp [TextCostumeSkin.animating, newAnimation, beginRainbow, setTimer, hidle.1,
      hidle.2.2])
  exact ⟨h.1, h.2, rfl, rfl⟩

theorem newAnimation_beginZoom (now : ℤ) {c : World} (hi : Inv c) (hs : c.settled) :
    Inv (newAnimation (beginZoom now) c).1 ∧
    (newAnimation (beginZoom now) c).1.inProgress
      { id := c.host.nextTimerId, kind := TimerKind.zoomEnd, resolve := c.host.nextPromise } ∧
    (newAnimation (beginZoom now) c).1.host.fulfilled = c.host.fulfilled ∧
    (newAnimation (beginZoom now) c).2 = c.host.nextPromise := by
  have hidle := (idle_iff c.skin).mp hs.2.1
  have h := inv_of_started (a := (newAnimation (beginZoom now) c).1)
    (t := { id := c.host.nextTimerId, kind := TimerKind.zoomEnd, resolve := c.host.nextPromise })
    hi hs (by simp [newAnimation, beginZoom, setTimer, hs.1]) rfl rfl rfl rfl rfl
    (by simp [TextCostumeSkin.animating, newAnimation, beginZoom, setTimer, hidle.1,
      hidle.2.1])
  exact ⟨h.1, h.2, rfl, rfl⟩

/-- Every start callback, run on a settled world, leaves its own animation in
progress under a new timer and a new promise, and fulfils nothing. -/
theorem newAnimation_callback {st : Step} {cb : Nat → World → World}
    (hcb : st.callback? = some cb) {c : World} (hi : Inv c) (hs : c.settled) :
    Inv (newAnimation cb c).1 ∧
    (∃ t, (newAnimation cb c).1.inProgress t ∧ t.resolve = (newAnimation cb c).2) ∧
    (newAnimation cb c).1.host.fulfilled = c.host.fulfilled ∧
    (newAnimation cb c).2 = c.host.nextPromise := by
  cases st <;> simp only [Step.callback?, Option.some.injEq, reduceCtorEq] at hcb <;> subst hcb
  · have h := newAnimation_beginType hi hs
    exact ⟨h.1, ⟨_, h.2.1, rfl⟩, h.2.2⟩
  · rename_i now
    have h := newAnimation_beginRainbow now hi hs
    exact ⟨h.1, ⟨_, h.2.1, rfl⟩, h.2.2⟩
  · rename_i now
    have h := newAnimation_beginZoom now hi hs
    exact ⟨h.1, ⟨_, h.2.1, rfl⟩, h.2.2⟩

/-! ### The animation state machine: timers firing -/

theorem fireTimer_of_settled {w : World} (hs : w.settled) (handle : Nat) :
    fireTimer handle w = w := by
  simp [fireTimer, hs.1]

theorem fireTimer_of_ne {w : World} {t : Timer} (hp : w.inProgress t) {handle : Nat}
    (hne : t.id ≠ handle) : fireTimer handle w = w := by
  simp [fireTimer, hp.1, List.find?, hne]

/-- A tick of the type animation below the length of the text: one more
character is visible and nothing else changes but the notification count. -/
theorem fireTimer_typeTick_continue {w : World} {t : Timer} (hp : w.inProgress t)
    (hk : t.kind = TimerKind.typeTick) {m : Nat}
    (hm : w.skin.maxDisplayableCharacters = some m) (hlt : m + 1 < w.skin.text.length) :
    fireTimer t.id w
      = { skin := { w.skin with maxDisplayableCharacters := some (m + 1) }
          host := { w.host with altered := w.host.altered + 1 } } := by
  have hnot : ¬ w.skin.text.length ≤ m + 1 := by omega
  simp [fireTimer, hp.1, List.find?, hk, typeTick, hm, budgetReached, hnot, emitWasAltered]

/-- The tick of the type animation that reaches the length of the text: the
budget becomes unlimited, the interval is cleared and the promise is fulfilled. -/
theorem fireTimer_typeTick_finish {w : World} {t : Timer} (hp : w.inProgress t)
    (hk : t.kind = TimerKind.typeTick) {m : Nat}
    (hm : w.skin.maxDisplayableCharacters = some m) (hge : w.skin.text.length ≤ m + 1) :
    (fireTimer t.id w).skin = { w.skin with maxDisplayableCharacters := none } ∧
    (fireTimer t.id w).host.timers = [] ∧
    (fireTimer t.id w).host.fulfilled = w.host.fulfilled ++ [t.resolve] ∧
    (fireTimer t.id w).host.resolveCalls = w.host.resolveCalls ++ [t.resolve] ∧
    (fireTimer t.id w).host.nextPromise = w.host.nextPromise := by
  have ha := hp.2.1
  unfold TextCostumeSkin.animating at ha
  rw [hk] at ha
  simp only at ha
  have hn := hp.2.2.2.1
  simp [fireTimer, hp.1, List.find?, hk, typeTick, hm, budgetReached, hge, emitWasAltered,
    callResolve, clearTimer, ha.1, hn]

/-- The timeout of the rainbow or of the zoom: the animation is over, the
timer is spent and the promise is fulfilled. -/
theorem fireTimer_timeout {w : World} {t : Timer} (hp : w.inProgress t)
    (hk : t.kind ≠ TimerKind.typeTick) :
    (fireTimer t.id w).skin.idle = true ∧
    (fireTimer t.id w).skin.resolveOngoingAnimation = w.skin.resolveOngoingAnimation ∧
    (fireTimer t.id w).host.timers = [] ∧
    (fireTimer t.id w).host.fulfilled = w.host.fulfilled ++ [t.resolve] ∧
    (fireTimer t.id w).host.resolveCalls = w.host.resolveCalls ++ [t.resolve] ∧
    (fireTimer t.id w).host.nextPromise = w.host.nextPromise := by
  have ha := hp.2.1
  have hn := hp.2.2.2.1
  unfold TextCostumeSkin.animating at ha
  cases hkind : t.kind with
  | typeTick => exact absurd hkind hk
  | rainbowEnd =>
    rw [hkind] at ha
    simp only at ha
    simp [fireTimer, hp.1, List.find?, hkind, rainbowEnd, emitWasAltered, callResolve,
      clearTimer, hn, idle_iff, ha.2.1, ha.2.2.2]
  | zoomEnd =>
    rw [hkind] at ha
    simp only at ha
    simp [fireTimer, hp.1, List.find?, hkind, zoomEnd, emitWasAltered, callResolve,
      clearTimer, hn, idle_iff, ha.2.1, ha.2.2.1]

theorem inv_fireTimer {w : World} (hi : Inv w) (handle : Nat) : Inv (fireTimer handle w) := by
  rcases hi.shape with hs | ⟨t, hp⟩
  · rw [fireTimer_of_settled hs]; exact hi
  · by_cases hne : t.id = handle
    · subst hne
      by_cases hk : t.kind = TimerKind.typeTick
      · have ha := hp.2.1
        unfold TextCostumeSkin.animating at ha
        rw [hk] at ha
        simp only at ha
        obtain ⟨m, hm⟩ := Option.isSome_iff_exists.mp ha.2.1
        rcases Nat.lt_or_ge (m + 1) w.skin.text.length with hlt | hge
        · rw [fireTimer_typeTick_continue hp hk hm hlt]
          refine ⟨hi.nodup, hi.bound, hi.ongoing, hi.logged, Or.inr ⟨t, hp.1, ?_, hp.2.2⟩⟩
          unfold TextCostumeSkin.animating
          rw [hk]
          exact ⟨ha.1, rfl, ha.2.2⟩
        · obtain ⟨h1, h2, h3, hrc, h4⟩ := fireTimer_typeTick_finish hp hk hm hge
          refine (inv_of_finished hi hp h2 ?_ h3 hrc h4 (by rw [h1])).1
          rw [h1, idle_iff]
          exact ⟨rfl, ha.2.2⟩
      · obtain ⟨h1, h2, h3, h4, hrc, h5⟩ := fireTimer_timeout hp hk
        exact (inv_of_finished hi hp h3 h1 h4 hrc h5 h2).1
    · rw [fireTimer_of_ne hp hne]; exact hi

/-! ### The animation state machine: reachable worlds -/

/-- The invariant only reads the animation fields of the skin and the timers
and promises of the host. -/
theorem inv_of_same {w a : World} (hi : Inv w)
    (h1 : a.host.timers = w.host.timers) (h2 : a.host.fulfilled = w.host.fulfilled)
    (hrc : a.host.resolveCalls = w.host.resolveCalls)
    (h3 : a.host.nextPromise = w.host.nextPromise)
    (h4 : a.skin.maxDisplayableCharacters = w.skin.maxDisplayableCharacters)
    (h5 : a.skin.isRainbow = w.skin.isRainbow) (h6 : a.skin.isZooming = w.skin.isZooming)
    (h7 : a.skin.typeAnimationInterval = w.skin.typeAnimationInterval)
    (h8 : a.skin.rainbowTimeout = w.skin.rainbowTimeout)
    (h9 : a.skin.zoomTimeout = w.skin.zoomTimeout)
    (h10 : a.skin.resolveOngoingAnimation = w.skin.resolveOngoingAnimation) : Inv a := by
  refine ⟨by rw [h2]; exact hi.nodup, by rw [h2, h3]; exact hi.bound,
    by rw [h10, h3]; exact hi.ongoing, by rw [h2, hrc]; exact hi.logged, ?_⟩
  rcases hi.shape with hs | ⟨t, hp⟩
  · left
    refine ⟨by rw [h1]; exact hs.1, ?_, by rw [h2, h3]; exact hs.2.2⟩
    rw [idle_iff, h4, h5, h6]
    exact (idle_iff _).mp hs.2.1
  · right
    refine ⟨t, by rw [h1]; exact hp.1, ?_, by rw [h10]; exact hp.2.2.1,
      by rw [h2]; exact hp.2.2.2.1, by rw [h2]; exact hp.2.2.2.2⟩
    have ha := hp.2.1
    unfold TextCostumeSkin.animating at ha ⊢
    rw [h4, h5, h6, h7, h8, h9]
    exact ha

theorem inv_initial (id : Nat) (stageWidth : ℚ) : Inv (World.initial id stageWidth) := by
  refine ⟨List.nodup_nil, ?_, ?_, fun p => Iff.rfl, Or.inl ⟨rfl, rfl, ?_⟩⟩
  · intro p hp; exact absurd hp (List.not_mem_nil p)
  · intro p hp; exact absurd hp (by simp [World.initial, TextCostumeSkin.new])
  · intro p hp; exact absurd hp (Nat.not_lt_zero p)

theorem inv_start {w : World} (hi : Inv w) (st : Step) {cb : Nat → World → World}
    (hcb : st.callback? = some cb) : Inv (_oneAnimationAtATime cb w).1 := by
  obtain ⟨hic, hsc⟩ := inv_cancelAnimation hi
  exact (newAnimation_callback hcb hic hsc).1

theorem inv_step (env : TextServices) {w : World} (hi : Inv w) (st : Step) :
    Inv (step env w st) := by
  cases st with
  | startTypeAnimation => exact inv_start hi Step.startTypeAnimation rfl
  | startRainbowAnimation now => exact inv_start hi (Step.startRainbowAnimation now) rfl
  | startZoomAnimation now => exact inv_start hi (Step.startZoomAnimation now) rfl
  | cancelAnimation => exact (inv_cancelAnimation hi).1
  | fire handle => exact inv_fireTimer hi handle
  | setText now text => exact inv_of_same hi rfl rfl rfl rfl rfl rfl rfl rfl rfl rfl rfl
  | setColor color => exact inv_of_same hi rfl rfl rfl rfl rfl rfl rfl rfl rfl rfl rfl
  | setAlign now align => exact inv_of_same hi rfl rfl rfl rfl rfl rfl rfl rfl rfl rfl rfl
  | setWidth now width => exact inv_of_same hi rfl rfl rfl rfl rfl rfl rfl rfl rfl rfl rfl
  | setFontFamily now font => exact inv_of_same hi rfl rfl rfl rfl rfl rfl rfl rfl rfl rfl rfl

theorem inv_run (env : TextServices) (steps : List Step) :
    ∀ {w : World}, Inv w → Inv (run env w steps) := by
  induction steps with
  | nil => intro w hi; exact hi
  | cons st rest ih => intro w hi; exact ih (inv_step env hi st)

theorem inv_of_reachable {env : TextServices} {w : World} (h : Reachable env w) : Inv w := by
  obtain ⟨id, stageWidth, steps, rfl⟩ := h
  exact inv_run env steps (inv_initial id stageWidth)

theorem reachable_step {env : TextServices} {w : World} (h : Reachable env w) (st : Step) :
    Reachable env (step env w st) := by
  obtain ⟨id, stageWidth, steps, rfl⟩ := h
  exact ⟨id, stageWidth, steps ++ [st], by simp [run, List.foldl_append]⟩

theorem activeCount_of_settled {w : World} (hs : w.settled) : w.skin.activeCount = 0 := by
  obtain ⟨h1, h2, h3⟩ := (idle_iff _).mp hs.2.1
  simp [TextCostumeSkin.activeCount, TextCostumeSkin.typing, h1, h2, h3]

theorem activeCount_of_inProgress {w : World} {t : Timer} (hp : w.inProgress t) :
    w.skin.activeCount = 1 ∧ w.skin.idle = false := by
  have ha := hp.2.1
  unfold TextCostumeSkin.animating at ha
  cases hk : t.kind <;> rw [hk] at ha <;> simp only at ha
  · obtain ⟨m, hm⟩ := Option.isSome_iff_exists.mp ha.2.1
    simp [TextCostumeSkin.activeCount, TextCostumeSkin.idle, TextCostumeSkin.typing, hm,
      ha.2.2.1, ha.2.2.2]
  · simp [TextCostumeSkin.activeCount, TextCostumeSkin.idle, TextCostumeSkin.typing, ha.2.1,
      ha.2.2.1, ha.2.2.2]
  · simp [TextCostumeSkin.activeCount, TextCostumeSkin.idle, TextCostumeSkin.typing, ha.2.1,
      ha.2.2.1, ha.2.2.2]

theorem step_start (env : TextServices) (w : World) {st : Step} {cb : Nat → World → World}
    (hcb : st.callback? = some cb) :
    step env w st = (newAnimation cb (cancelAnimation w)).1 := by
  cases st <;> simp only [Step.callback?, Option.some.injEq, reduceCtorEq] at hcb <;>
    subst hcb <;> rfl

/-! ### One animation at a time -/

/-- C1: in every world reachable from a freshly constructed skin by start,
cancel, timer and setter steps, at most one of Typing, Rainbow and Zooming is
active; and every start step is `cancelAnimation` followed by the callback of
the new animation, where the cancellation already leaves the skin idle with the
completion signal of the animation that was in progress fulfilled, and the
callback then makes exactly the new animation active. -/
theorem one_animation_at_a_time (env : TextServices) (w : World) (hw : Reachable env w) :
    w.skin.activeCount ≤ 1 ∧
    ∀ (st : Step) (cb : Nat → World → World), st.callback? = some cb →
      step env w st = (newAnimation cb (cancelAnimation w)).1 ∧
      (cancelAnimation w).skin.idle = true ∧
      (step env w st).skin.activeCount = 1 ∧
      (w.skin.idle = false →
        ∃ t, w.host.timers = [t] ∧ w.skin.resolveOngoingAnimation = some t.resolve ∧
          t.resolve ∉ w.host.fulfilled ∧
          t.resolve ∈ (cancelAnimation w).host.fulfilled ∧
          t.resolve ∈ (step env w st).host.fulfilled) := by
  have hi := inv_of_reachable hw
  constructor
  · rcases hi.shape with hs | ⟨t, hp⟩
    · rw [activeCount_of_settled hs]; exact Nat.zero_le _
    · rw [(activeCount_of_inProgress hp).1]
  · intro st cb hcb
    obtain ⟨hic, hsc⟩ := inv_cancelAnimation hi
    obtain ⟨-, ⟨t', hp', -⟩, hf', -⟩ := newAnimation_callback hcb hic hsc
    have hstep := step_start env w hcb
    refine ⟨hstep, cancelAnimation_idle w, ?_, ?_⟩
    · rw [hstep]; exact (activeCount_of_inProgress hp').1
    · intro hidle
      rcases hi.shape with hs | ⟨t, hp⟩
      · rw [hs.2.1] at hidle; exact absurd hidle (by simp)
      · have hc := (cancelAnimation_of_inProgress hp).2
        have hmem : t.resolve ∈ (cancelAnimation w).host.fulfilled := by
          rw [hc]; simp
        exact ⟨t, hp.1, hp.2.2.1, hp.2.2.2.1, hmem, by rw [hstep, hf']; exact hmem⟩

/-- Witness for C1: starting a rainbow while a zoom is in progress fulfils the
promise of the zoom (promise 0) in the cancellation, before the rainbow begins,
and leaves exactly one animation active. -/
theorem one_animation_at_a_time_witness :
    zoomWorld.skin.activeCount ≤ 1 ∧
    zoomWorld.skin.idle = false ∧
    0 ∉ zoomWorld.host.fulfilled ∧
    0 ∈ (cancelAnimation zoomWorld).host.fulfilled ∧
    (cancelAnimation zoomWorld).skin.idle = true ∧
    0 ∈ (step fixedServices zoomWorld (Step.startRainbowAnimation 10)).host.fulfilled ∧
    (step fixedServices zoomWorld (Step.startRainbowAnimation 10)).skin.activeCount = 1 := by
  have hr : Reachable fixedServices zoomWorld := ⟨0, 480, [Step.startZoomAnimation 0], rfl⟩
  obtain ⟨h1, h2⟩ := one_animation_at_a_time fixedServices zoomWorld hr
  obtain ⟨-, h3, h4, h5⟩ := h2 (Step.startRainbowAnimation 10) (beginRainbow 10) rfl
  have hidle : zoomWorld.skin.idle = false := by decide
  obtain ⟨t, ht, -, h6, h7, h8⟩ := h5 hidle
  have ht0 : zoomWorld.host.timers = [{ id := 0, kind := TimerKind.zoomEnd, resolve := 0 }] := by
    decide
  have : t.resolve = 0 := by
    rw [ht0] at ht
    have := (List.cons.inj ht).1
    rw [← this]
  rw [this] at h6 h7 h8
  exact ⟨h1, hidle, h6, h7, h3, h8, h4⟩

/-! ### Completion signals -/

/-- The claim C2, as stated, fails after an animation has ended by itself: a
later `cancelAnimation` invokes the same `resolve` callback a second time, and
that cancellation clears no pending timer and resolves no pending signal. -/
theorem resolve_invoked_twice_counterexample :
    endedRainbowWorld.host.resolveCalls = [0] ∧
    (cancelAnimation endedRainbowWorld).host.resolveCalls = [0, 0] ∧
    endedRainbowWorld.host.timers = [] ∧
    (cancelAnimation endedRainbowWorld).host.timers = [] ∧
    endedRainbowWorld.host.fulfilled = [0] ∧
    (cancelAnimation endedRainbowWorld).host.fulfilled = [0] := by
  refine ⟨by decide, by decide, by decide, by decide, by decide, by decide⟩

/-- C2 (amended): in every reachable world each completion signal is fulfilled
at most once, it is fulfilled exactly when its `resolve` callback has been
invoked at least once and exactly when no scheduled timer belongs to it (so
from the moment its animation finished or was cancelled, whichever came
first); the signal a start returns is new and pending and owns the one
scheduled timer; and a cancellation clears one pending timer and fulfils one
pending signal when an animation is in progress, and none when the skin is idle. -/
theorem completion_signals (env : TextServices) (w : World) (hw : Reachable env w) :
    w.host.fulfilled.Nodup ∧
    (∀ p, p ∈ w.host.fulfilled ↔ p ∈ w.host.resolveCalls) ∧
    (∀ p, p < w.host.nextPromise →
      (p ∈ w.host.fulfilled ↔ ∀ t, t ∈ w.host.timers → t.resolve ≠ p)) ∧
    (∀ (st : Step) (cb : Nat → World → World), st.callback? = some cb →
      (_oneAnimationAtATime cb w).2 = w.host.nextPromise ∧
      (_oneAnimationAtATime cb w).2 ∉ (_oneAnimationAtATime cb w).1.host.fulfilled ∧
      ∃ t, (_oneAnimationAtATime cb w).1.host.timers = [t] ∧
        t.resolve = (_oneAnimationAtATime cb w).2) ∧
    (w.skin.idle = true →
      w.host.timers = [] ∧ (cancelAnimation w).host.timers = [] ∧
      (cancelAnimation w).host.fulfilled = w.host.fulfilled) ∧
    (w.skin.idle = false →
      ∃ t, w.host.timers = [t] ∧ (cancelAnimation w).host.timers = [] ∧
        t.resolve ∉ w.host.fulfilled ∧
        (cancelAnimation w).host.fulfilled = w.host.fulfilled ++ [t.resolve]) := by
  have hi := inv_of_reachable hw
  refine ⟨hi.nodup, fun p => (hi.logged p).symm, ?_, ?_, ?_, ?_⟩
  · intro p hlt
    rcases hi.shape with hs | ⟨t, hp⟩
    · constructor
      · intro _ t ht
        rw [hs.1] at ht
        exact absurd ht (List.not_mem_nil t)
      · intro _
        exact hs.2.2 p hlt
    · have hnext : t.resolve + 1 = w.host.nextPromise := hi.ongoing _ hp.2.2.1
      constructor
      · intro hmem t' ht' heq
        rw [hp.1, List.mem_singleton] at ht'
        subst ht'
        rw [← heq] at hmem
        exact hp.2.2.2.1 hmem
      · intro hall
        have hne : t.resolve ≠ p := hall t (by rw [hp.1]; exact List.mem_singleton.mpr rfl)
        exact hp.2.2.2.2 p (by omega)
  · intro st cb hcb
    obtain ⟨hic, hsc⟩ := inv_cancelAnimation hi
    obtain ⟨-, ⟨t, hp, hres⟩, -, hret⟩ := newAnimation_callback hcb hic hsc
    refine ⟨by rw [← (cancelAnimation_counters w).1]; exact hret, ?_, t, hp.1, hres⟩
    have := hp.2.2.2.1
    rw [hres] at this
    exact this
  · intro hidle
    rcases hi.shape with hs | ⟨t, hp⟩
    · obtain ⟨h1, h2⟩ := cancelAnimation_of_settled hi hs
      exact ⟨hs.1, h1, h2⟩
    · rw [(activeCount_of_inProgress hp).2] at hidle
      exact absurd hidle (by simp)
  · intro hidle
    rcases hi.shape with hs | ⟨t, hp⟩
    · rw [hs.2.1] at hidle
      exact absurd hidle (by simp)
    · obtain ⟨h1, h2⟩ := cancelAnimation_of_inProgress hp
      exact ⟨t, hp.1, h1, hp.2.2.2.1, h2⟩

/-- Witness for C2: while the zoom started on a fresh skin is in progress its
promise 0 is pending; cancelling clears its one timer and fulfils promise 0,
and a type animation started instead returns the new promise 1. -/
theorem completion_signals_witness :
    zoomWorld.host.timers.length = 1 ∧
    (cancelAnimation zoomWorld).host.timers = [] ∧
    zoomWorld.host.fulfilled = [] ∧
    (cancelAnimation zoomWorld).host.fulfilled = [0] ∧
    (_oneAnimationAtATime beginType zoomWorld).2 = 1 ∧
    1 ∉ (_oneAnimationAtATime beginType zoomWorld).1.host.fulfilled := by
  have hr : Reachable fixedServices zoomWorld := ⟨0, 480, [Step.startZoomAnimation 0], rfl⟩
  obtain ⟨-, -, -, hstart, -, hbusy⟩ := completion_signals fixedServices zoomWorld hr
  obtain ⟨t, ht, hc, -, hf⟩ := hbusy (by decide)
  obtain ⟨h1, h2, -⟩ := hstart Step.startTypeAnimation beginType rfl
  have ht0 : zoomWorld.host.timers = [{ id := 0, kind := TimerKind.zoomEnd, resolve := 0 }] := by
    decide
  have hf0 : zoomWorld.host.fulfilled = [] := by decide
  have hres : t.resolve = 0 := by
    rw [ht0] at ht
    have := (List.cons.inj ht).1
    rw [← this]
  have hn : zoomWorld.host.nextPromise = 1 := by decide
  rw [hres, hf0] at hf
  rw [hn] at h1
  rw [h1] at h2
  exact ⟨by rw [ht0]; rfl, hc, hf0, hf, h1, h2⟩

/-! ### Cancelling is idempotent -/

theorem cancelAnimation_timers_mem (w : World) (t : Timer)
    (ht : t ∈ (cancelAnimation w).host.timers) :
    some t.id ≠ w.skin.typeAnimationInterval ∧ some t.id ≠ w.skin.rainbowTimeout ∧
      some t.id ≠ w.skin.zoomTimeout := by
  rw [cancelAnimation_timers] at ht
  simp only [List.mem_filter, decide_eq_true_eq] at ht
  exact ⟨ht.1.1.2, ht.1.2, ht.2⟩

theorem cancelAnimation_ongoing_fulfilled (w : World) (p : Nat)
    (hp : w.skin.resolveOngoingAnimation = some p) :
    p ∈ (cancelAnimation w).host.fulfilled := by
  rw [cancelAnimation_fulfilled, hp]
  by_cases h : p ∈ w.host.fulfilled
  · simp [h]
  · simp [h]

/-- Cancelling clears nothing when no scheduled timer is held in a handle. -/
theorem cancelAnimation_timers_of_clear {w : World}
    (h : ∀ t, t ∈ w.host.timers →
      some t.id ≠ w.skin.typeAnimationInterval ∧ some t.id ≠ w.skin.rainbowTimeout ∧
        some t.id ≠ w.skin.zoomTimeout) :
    (cancelAnimation w).host.timers = w.host.timers := by
  rw [cancelAnimation_timers]
  have e1 : w.host.timers.filter (fun t => decide (some t.id ≠ w.skin.typeAnimationInterval))
      = w.host.timers :=
    List.filter_eq_self.mpr (fun t ht => by simpa using (h t ht).1)
  have e2 : w.host.timers.filter (fun t => decide (some t.id ≠ w.skin.rainbowTimeout))
      = w.host.timers :=
    List.filter_eq_self.mpr (fun t ht => by simpa using (h t ht).2.1)
  have e3 : w.host.timers.filter (fun t => decide (some t.id ≠ w.skin.zoomTimeout))
      = w.host.timers :=
    List.filter_eq_self.mpr (fun t ht => by simpa using (h t ht).2.2)
  rw [e1, e2, e3]

/-- Cancelling fulfils nothing when the stored `resolve` belongs to a
promise that is already fulfilled. -/
theorem cancelAnimation_fulfilled_of_resolved {w : World}
    (h : ∀ p, w.skin.resolveOngoingAnimation = some p → p ∈ w.host.fulfilled) :
    (cancelAnimation w).host.fulfilled = w.host.fulfilled := by
  rw [cancelAnimation_fulfilled]
  cases hp : w.skin.resolveOngoingAnimation with
  | none => rfl
  | some p => simp [h p hp]

/-- C3: from every state, `cancelAnimation` leaves the skin idle with an
unlimited visible-character budget and none of the timers held in its three
handles still scheduled (for a reachable world: no timer at all); applying it
a second time changes neither the skin nor the scheduled timers nor the
fulfilled promises; and it leaves text, color, width, font and alignment as
they were. -/
theorem cancelAnimation_idempotent (env : TextServices) (w : World) :
    ((cancelAnimation w).skin.maxDisplayableCharacters = none ∧
      (cancelAnimation w).skin.isRainbow = false ∧
      (cancelAnimation w).skin.isZooming = false ∧
      (cancelAnimation w).skin.idle = true) ∧
    (∀ t, t ∈ (cancelAnimation w).host.timers →
      some t.id ≠ (cancelAnimation w).skin.typeAnimationInterval ∧
      some t.id ≠ (cancelAnimation w).skin.rainbowTimeout ∧
      some t.id ≠ (cancelAnimation w).skin.zoomTimeout) ∧
    (Reachable env w → (cancelAnimation w).host.timers = []) ∧
    ((cancelAnimation (cancelAnimation w)).skin = (cancelAnimation w).skin ∧
      (cancelAnimation (cancelAnimation w)).host.timers = (cancelAnimation w).host.timers ∧
      (cancelAnimation (cancelAnimation w)).host.fulfilled
        = (cancelAnimation w).host.fulfilled) ∧
    ((cancelAnimation w).skin.text = w.skin.text ∧
      (cancelAnimation w).skin.color = w.skin.color ∧
      (cancelAnimation w).skin.textWidth = w.skin.textWidth ∧
      (cancelAnimation w).skin.fontFamily = w.skin.fontFamily ∧
      (cancelAnimation w).skin.align = w.skin.align) := by
  refine ⟨?_, ?_, ?_, ⟨?_, ?_, ?_⟩, ?_⟩
  · rw [cancelAnimation_skin]
    exact ⟨rfl, rfl, rfl, rfl⟩
  · intro t ht
    have := cancelAnimation_timers_mem w t ht
    rw [cancelAnimation_skin]
    exact this
  · intro hw
    exact (inv_cancelAnimation (inv_of_reachable hw)).2.1
  · rw [cancelAnimation_skin (cancelAnimation w), cancelAnimation_skin w]
  · apply cancelAnimation_timers_of_clear
    intro t ht
    have := cancelAnimation_timers_mem w t ht
    rw [cancelAnimation_skin]
    exact this
  · apply cancelAnimation_fulfilled_of_resolved
    intro p hp
    rw [cancelAnimation_ongoing] at hp
    exact cancelAnimation_ongoing_fulfilled w p hp
  · rw [cancelAnimation_skin]
    exact ⟨rfl, rfl, rfl, rfl, rfl⟩

/-- Witness for C3: cancelling the zoom in progress on a fresh skin leaves no
timer scheduled. -/
theorem cancelAnimation_idempotent_witness :
    zoomWorld.host.timers.length = 1 ∧ (cancelAnimation zoomWorld).host.timers = [] := by
  have hr : Reachable fixedServices zoomWorld := ⟨0, 480, [Step.startZoomAnimation 0], rfl⟩
  exact ⟨by decide, (cancelAnimation_idempotent fixedServices zoomWorld).2.2.1 hr⟩

/-! ### The type animation -/

theorem tickType_of_inProgress {w : World} {t : Timer} (hp : w.inProgress t)
    (hk : t.kind = TimerKind.typeTick) : tickType w = fireTimer t.id w := by
  have ha := hp.2.1
  unfold TextCostumeSkin.animating at ha
  rw [hk] at ha
  simp only at ha
  simp [tickType, ha.1]

/-- While fewer ticks have fired than the text is long (and before the first
tick in any case), the type animation is in progress with as many characters
visible as ticks have fired. -/
theorem tickType_iterate {a : World} {t : Timer} (hp : a.inProgress t)
    (hk : t.kind = TimerKind.typeTick) (h0 : a.skin.maxDisplayableCharacters = some 0) :
    ∀ k, k < max 1 a.skin.text.length →
      (tickType^[k] a).inProgress t ∧
      (tickType^[k] a).skin.maxDisplayableCharacters = some k ∧
      (tickType^[k] a).skin.text = a.skin.text ∧
      (tickType^[k] a).host.fulfilled = a.host.fulfilled := by
  intro k
  induction k with
  | zero => intro _; exact ⟨hp, h0, rfl, rfl⟩
  | succ k ih =>
    intro hlt
    obtain ⟨hpk, hmk, htk, hfk⟩ := ih (by omega)
    have hlen : k + 1 < (tickType^[k] a).skin.text.length := by
      rw [htk]
      rcases Nat.lt_or_ge 1 a.skin.text.length with h | h
      · rw [max_eq_right h.le] at hlt; exact hlt
      · rw [max_eq_left h] at hlt; omega
    rw [Function.iterate_succ_apply', tickType_of_inProgress hpk hk,
      fireTimer_typeTick_continue hpk hk hmk hlen]
    refine ⟨⟨hpk.1, ?_, hpk.2.2.1, hpk.2.2.2.1, hpk.2.2.2.2⟩, rfl, htk, hfk⟩
    have ha := hpk.2.1
    unfold TextCostumeSkin.animating at ha ⊢
    rw [hk] at ha ⊢
    exact ⟨ha.1, rfl, ha.2.2⟩

/-- The claim C4, as stated, fails for the empty text: its length is 0, but
right after `startTypeAnimation` (no tick yet) the budget is still 0 and not
unlimited, the interval is scheduled and the promise is pending; it is the
first tick that completes the animation. -/
theorem typing_empty_text_counterexample :
    typingWorld.skin.text.length = 0 ∧
    typingWorld.skin.maxDisplayableCharacters = some 0 ∧
    typingWorld.host.timers.length = 1 ∧
    typingWorld.host.fulfilled = [] ∧
    (tickType typingWorld).skin.maxDisplayableCharacters = none ∧
    (tickType typingWorld).host.timers = [] ∧
    (tickType typingWorld).host.fulfilled = [0] := by
  refine ⟨by decide, by decide, by decide, by decide, by decide, by decide, by decide⟩

/-- C4 (amended): after `startTypeAnimation` on a reachable skin, with no
cancel and no text change in between, the visible-character budget is 0 before
the first tick and `k` after `k` ticks for every `k` below the text length, the
interval staying scheduled and the completion signal pending; the tick on
which the budget becomes unlimited, the interval is cleared and the completion
signal is fulfilled is tick number `max 1 length`: the text length for a
non-empty text, and the first tick for the empty text. -/
theorem typing_ticks (env : TextServices) (w : World) (hw : Reachable env w) :
    (startTypeAnimation w).1.skin.maxDisplayableCharacters = some 0 ∧
    (∀ k, k < max 1 w.skin.text.length →
      (tickType^[k] (startTypeAnimation w).1).skin.maxDisplayableCharacters = some k ∧
      (tickType^[k] (startTypeAnimation w).1).host.timers.length = 1 ∧
      (startTypeAnimation w).2 ∉ (tickType^[k] (startTypeAnimation w).1).host.fulfilled) ∧
    (tickType^[max 1 w.skin.text.length] (startTypeAnimation w).1).skin.maxDisplayableCharacters
      = none ∧
    (tickType^[max 1 w.skin.text.length] (startTypeAnimation w).1).host.timers = [] ∧
    (startTypeAnimation w).2
      ∈ (tickType^[max 1 w.skin.text.length] (startTypeAnimation w).1).host.fulfilled := by
  have hi := inv_of_reachable hw
  obtain ⟨hic, hsc⟩ := inv_cancelAnimation hi
  obtain ⟨-, hp, -, hret⟩ := newAnimation_beginType hic hsc
  have hstart : startTypeAnimation w = newAnimation beginType (cancelAnimation w) := rfl
  have h0 : (newAnimation beginType (cancelAnimation w)).1.skin.maxDisplayableCharacters
      = some 0 := rfl
  have htext : (newAnimation beginType (cancelAnimation w)).1.skin.text = w.skin.text := by
    show (cancelAnimation w).skin.text = w.skin.text
    rw [cancelAnimation_skin]
  rw [hstart]
  have hit := tickType_iterate hp rfl h0
  rw [htext] at hit
  refine ⟨h0, ?_, ?_⟩
  · intro k hk
    obtain ⟨hpk, hmk, -, -⟩ := hit k hk
    refine ⟨hmk, by rw [hpk.1]; rfl, ?_⟩
    rw [hret]
    exact hpk.2.2.2.1
  · obtain ⟨m, hm⟩ : ∃ m, max 1 w.skin.text.length = m + 1 :=
      ⟨max 1 w.skin.text.length - 1, by have := le_max_left 1 w.skin.text.length; omega⟩
    obtain ⟨hpm, hmm, htm, -⟩ := hit m (by omega)
    have hge : (tickType^[m] (newAnimation beginType (cancelAnimation w)).1).skin.text.length
        ≤ m + 1 := by
      rw [htm, ← hm]
      exact le_max_right _ _
    obtain ⟨h1, h2, h3, -, -⟩ := fireTimer_typeTick_finish hpm rfl hmm hge
    rw [hm, Function.iterate_succ_apply', tickType_of_inProgress hpm rfl]
    refine ⟨by rw [h1], h2, ?_⟩
    rw [h3, hret]
    simp

/-- Witness for C4: on the text `Hi`, one character is visible after one tick
and the animation completes on the second tick. -/
theorem typing_ticks_witness :
    hiWorld.skin.text.length = 2 ∧
    (startTypeAnimation hiWorld).1.skin.maxDisplayableCharacters = some 0 ∧
    (tickType^[1] (startTypeAnimation hiWorld).1).skin.maxDisplayableCharacters = some 1 ∧
    (startTypeAnimation hiWorld).2 ∉ (tickType^[1] (startTypeAnimation hiWorld).1).host.fulfilled ∧
    (tickType^[2] (startTypeAnimation hiWorld).1).skin.maxDisplayableCharacters = none ∧
    (tickType^[2] (startTypeAnimation hiWorld).1).host.timers = [] ∧
    (startTypeAnimation hiWorld).2
      ∈ (tickType^[2] (startTypeAnimation hiWorld).1).host.fulfilled := by
  have hr : Reachable fixedServices hiWorld := ⟨0, 480, [Step.setText 0 "Hi".toList], rfl⟩
  have hlen : hiWorld.skin.text.length = 2 := by decide
  obtain ⟨h0, hk, h1, h2, h3⟩ := typing_ticks fixedServices hiWorld hr
  rw [hlen] at hk h1 h2 h3
  obtain ⟨h4, -, h5⟩ := hk 1 (by decide)
  exact ⟨hlen, h0, h4, h5, h1, h2, h3⟩

/-! ### The volatile getter -/

/-- The claim C8, as stated, fails while typing: right after
`startTypeAnimation` the budget is finite, so the Typing animation is active,
yet `volatile` is false. -/
theorem volatile_typing_counterexample :
    Reachable fixedServices typingWorld ∧
    typingWorld.skin.typing = true ∧
    typingWorld.skin.idle = false ∧
    typingWorld.skin.volatile = false :=
  ⟨⟨0, 480, [Step.startTypeAnimation], rfl⟩, by decide, by decide, by decide⟩

/-- C8 (amended): in every reachable world the `volatile` getter is true
exactly while the state is Rainbow or Zooming, and false when the state is
Idle or Typing. -/
theorem volatile_spec (env : TextServices) (w : World) (hw : Reachable env w) :
    (w.skin.volatile = true ↔ (w.skin.isRainbow = true ∨ w.skin.isZooming = true)) ∧
    (w.skin.idle = true → w.skin.volatile = false) ∧
    (w.skin.typing = true → w.skin.volatile = false) := by
  have hi := inv_of_reachable hw
  refine ⟨by simp [TextCostumeSkin.volatile], ?_, ?_⟩
  · intro hidle
    obtain ⟨-, h2, h3⟩ := (idle_iff _).mp hidle
    simp [TextCostumeSkin.volatile, h2, h3]
  · intro htyping
    rcases hi.shape with hs | ⟨t, hp⟩
    · obtain ⟨-, h2, h3⟩ := (idle_iff _).mp hs.2.1
      simp [TextCostumeSkin.volatile, h2, h3]
    · have ha := hp.2.1
      unfold TextCostumeSkin.animating at ha
      unfold TextCostumeSkin.typing at htyping
      cases hk : t.kind <;> rw [hk] at ha <;> simp only at ha
      · simp [TextCostumeSkin.volatile, ha.2.2.1, ha.2.2.2]
      · rw [ha.2.1] at htyping; exact absurd htyping (by simp)
      · rw [ha.2.1] at htyping; exact absurd htyping (by simp)

/-- Witness for C8: `volatile` is true during the zoom started on a fresh skin
and false once it has been cancelled. -/
theorem volatile_spec_witness :
    zoomWorld.skin.volatile = true ∧ (cancelAnimation zoomWorld).skin.volatile = false := by
  have hr : Reachable fixedServices zoomWorld := ⟨0, 480, [Step.startZoomAnimation 0], rfl⟩
  have hc : Reachable fixedServices (cancelAnimation zoomWorld) :=
    reachable_step hr Step.cancelAnimation
  exact ⟨(volatile_spec fixedServices zoomWorld hr).1.mpr (Or.inr (by decide)),
    (volatile_spec fixedServices (cancelAnimation zoomWorld) hc).2.1 (by decide)⟩

/-! ### The block `animateText` with an unrecognised animation -/

theorem setText_skin_animation (env : TextServices) (now : ℤ) (text : JSString) (w : World) :
    (setText env now text w).skin.maxDisplayableCharacters = w.skin.maxDisplayableCharacters ∧
    (setText env now text w).skin.isRainbow = w.skin.isRainbow ∧
    (setText env now text w).skin.isZooming = w.skin.isZooming ∧
    (setText env now text w).skin.text = text ∧
    (setText env now text w).skin.id = w.skin.id :=
  ⟨rfl, rfl, rfl, rfl, rfl⟩

theorem cancelAnimation_skin_of_idle {w : World} (h : w.skin.idle = true) :
    (cancelAnimation w).skin = w.skin := by
  obtain ⟨h1, h2, h3⟩ := (idle_iff _).mp h
  rw [cancelAnimation_skin]
  rcases w with ⟨s, host⟩
  cases s
  simp only at h1 h2 h3
  subst h1 h2 h3
  rfl

/-- The claim C9, as stated, fails: on a target that shows its costume while
its text skin, with the empty text, is zooming, `animateText` with the
unknown animation `spin` and the text `x` returns `undefined` but changes the
text to `x`, ends the zoom, fulfils the promise of the zoom and switches the
drawable to the text skin. -/
theorem animateText_unrecognized_counterexample :
    (zoomingStage.state.map fun s => (s.text, s.isZooming)) = some ([], true) ∧
    zoomingStage.drawableSkinId = 9 ∧
    zoomingStage.host.fulfilled = [] ∧
    (zoomingStage.animateText fixedServices 0 "spin" ['x']).2 = none ∧
    ((zoomingStage.animateText fixedServices 0 "spin" ['x']).1.state.map
      fun s => (s.text, s.isZooming)) = some (['x'], false) ∧
    (zoomingStage.animateText fixedServices 0 "spin" ['x']).1.drawableSkinId = 0 ∧
    (zoomingStage.animateText fixedServices 0 "spin" ['x']).1.host.fulfilled = [0] := by
  refine ⟨by decide, by decide, by decide, by decide, by decide, by decide, by decide⟩

/-- C9 (amended): for every `ANIMATE` value other than `type`, `rainbow` and
`zoom`, and every `TEXT` and target state, `animateText` starts no animation:
it returns `undefined`, creates no promise and schedules no timer; like the
`setText` block it leaves the target with the text `TEXT`, no animation active
and the text skin on display. -/
theorem animateText_unrecognized (env : TextServices) (now : ℤ) (ANIMATE : String)
    (TEXT : JSString) (st : Stage)
    (h1 : ANIMATE ≠ "type") (h2 : ANIMATE ≠ "rainbow") (h3 : ANIMATE ≠ "zoom") :
    (st.animateText env now ANIMATE TEXT).2 = none ∧
    (st.animateText env now ANIMATE TEXT).1.host.nextPromise = st.host.nextPromise ∧
    (st.animateText env now ANIMATE TEXT).1.host.nextTimerId = st.host.nextTimerId ∧
    (∃ skin, (st.animateText env now ANIMATE TEXT).1.state = some skin ∧
      skin.text = TEXT ∧ skin.idle = true ∧
      (st.animateText env now ANIMATE TEXT).1.drawableSkinId = skin.id) ∧
    (st.animateText env now ANIMATE TEXT).1.state = (st.setText env now TEXT).state ∧
    (st.animateText env now ANIMATE TEXT).1.drawableSkinId
      = (st.setText env now TEXT).drawableSkinId ∧
    (st.animateText env now ANIMATE TEXT).1.host.timers
      = (st.setText env now TEXT).host.timers ∧
    (st.animateText env now ANIMATE TEXT).1.host.fulfilled
      = (st.setText env now TEXT).host.fulfilled := by
  have hw : ∀ w : World,
      (cancelAnimation (setText env now TEXT (cancelAnimation w))).skin
        = (setText env now TEXT (cancelAnimation w)).skin := by
    intro w
    apply cancelAnimation_skin_of_idle
    rw [idle_iff]
    have hc := (idle_iff _).mp (cancelAnimation_idle w)
    exact ⟨hc.1, hc.2.1, hc.2.2⟩
  have hid : ∀ w : World, (setText env now TEXT (cancelAnimation w)).skin.id = w.skin.id := by
    intro w
    show (cancelAnimation w).skin.id = w.skin.id
    rw [cancelAnimation_skin]
  have htimers : ∀ w : World,
      (cancelAnimation (setText env now TEXT (cancelAnimation w))).host.timers
        = (setText env now TEXT (cancelAnimation w)).host.timers := by
    intro w
    apply cancelAnimation_timers_of_clear
    intro t ht
    have := cancelAnimation_timers_mem w t ht
    show some t.id ≠ (cancelAnimation w).skin.typeAnimationInterval ∧
      some t.id ≠ (cancelAnimation w).skin.rainbowTimeout ∧
      some t.id ≠ (cancelAnimation w).skin.zoomTimeout
    rw [cancelAnimation_skin]
    exact this
  have hful : ∀ w : World,
      (cancelAnimation (setText env now TEXT (cancelAnimation w))).host.fulfilled
        = (setText env now TEXT (cancelAnimation w)).host.fulfilled := by
    intro w
    apply cancelAnimation_fulfilled_of_resolved
    intro p hp
    have hp' : w.skin.resolveOngoingAnimation = some p := by
      rw [← cancelAnimation_ongoing w]
      exact hp
    exact cancelAnimation_ongoing_fulfilled w p hp'
  have hcount : ∀ w : World,
      (cancelAnimation (setText env now TEXT (cancelAnimation w))).host.nextPromise
          = w.host.nextPromise ∧
      (cancelAnimation (setText env now TEXT (cancelAnimation w))).host.nextTimerId
          = w.host.nextTimerId := by
    intro w
    have h := cancelAnimation_counters (setText env now TEXT (cancelAnimation w))
    have h' := cancelAnimation_counters w
    exact ⟨h.1.trans h'.1, h.2.trans h'.2⟩
  have hres : st.animateText env now ANIMATE TEXT
      = ((st._getState.1._renderText st._getState.2).1.store
          (cancelAnimation (setText env now TEXT (cancelAnimation st._getState.2))), none) := by
    simp [Stage.animateText, h1, h2, h3, Stage._renderText]
  have hhost : st._getState.2.host = st.host := by
    cases hst : st.state <;> simp [Stage._getState, hst]
  rw [hres]
  refine ⟨rfl, ?_, ?_, ⟨_, rfl, ?_, ?_, ?_⟩, ?_, ?_, ?_, ?_⟩
  · show (cancelAnimation (setText env now TEXT (cancelAnimation st._getState.2))).host.nextPromise
      = st.host.nextPromise
    rw [(hcount _).1, hhost]
  · show (cancelAnimation (setText env now TEXT (cancelAnimation st._getState.2))).host.nextTimerId
      = st.host.nextTimerId
    rw [(hcount _).2, hhost]
  · show (cancelAnimation (setText env now TEXT (cancelAnimation st._getState.2))).skin.text = TEXT
    rw [hw]
    rfl
  · exact cancelAnimation_idle _
  · show (cancelAnimation st._getState.2).skin.id
      = (cancelAnimation (setText env now TEXT (cancelAnimation st._getState.2))).skin.id
    rw [hw, hid, cancelAnimation_skin]
  · show some (cancelAnimation (setText env now TEXT (cancelAnimation st._getState.2))).skin
      = some (setText env now TEXT (cancelAnimation st._getState.2)).skin
    rw [hw]
  · rfl
  · exact htimers _
  · exact hful _

/-- Witness for C9: on the zooming target, `animateText` with the unknown
animation `spin` returns `undefined`, creates no promise, and leaves the text
`x` on an idle text skin. -/
theorem animateText_unrecognized_witness :
    (zoomingStage.animateText fixedServices 0 "spin" ['x']).2 = none ∧
    (zoomingStage.animateText fixedServices 0 "spin" ['x']).1.host.nextPromise = 1 ∧
    (zoomingStage.animateText fixedServices 0 "spin" ['x']).1.state
      = (zoomingStage.setText fixedServices 0 ['x']).state := by
  have h := animateText_unrecognized fixedServices 0 "spin" ['x'] zoomingStage
    (by decide) (by decide) (by decide)
  exact ⟨h.1, h.2.1.trans (by decide), h.2.2.2.2.1⟩

/-! ### Size and rotation center -/

theorem jsRound_intCast (n : ℤ) : jsRound (n : ℚ) = n := by
  unfold jsRound
  rw [Int.floor_eq_iff]
  constructor
  · linarith
  · linarith

theorem clearTimer_skin (handle : Option Nat) (w : World) : (clearTimer handle w).skin = w.skin := by
  cases handle <;> rfl

theorem typeTick_pitch (resolve : Nat) (w : World) :
    (typeTick resolve w).skin.baseFontSize = w.skin.baseFontSize ∧
    (typeTick resolve w).skin.spaceBetweenLines = w.skin.spaceBetweenLines := by
  simp only [typeTick]
  split_ifs
  · simp [emitWasAltered, callResolve, clearTimer_skin]
  · simp [emitWasAltered]

theorem fireTimer_pitch (handle : Nat) (w : World) :
    (fireTimer handle w).skin.baseFontSize = w.skin.baseFontSize ∧
    (fireTimer handle w).skin.spaceBetweenLines = w.skin.spaceBetweenLines := by
  unfold fireTimer
  split
  · exact ⟨rfl, rfl⟩
  · split
    · exact typeTick_pitch _ w
    · simp [rainbowEnd, emitWasAltered, callResolve, clearTimer_skin]
    · simp [zoomEnd, emitWasAltered, callResolve, clearTimer_skin]

/-- No step changes the base font size or the line spacing. -/
theorem step_pitch (env : TextServices) (w : World) (st : Step) :
    (step env w st).skin.baseFontSize = w.skin.baseFontSize ∧
    (step env w st).skin.spaceBetweenLines = w.skin.spaceBetweenLines := by
  have hc : (cancelAnimation w).skin.baseFontSize = w.skin.baseFontSize ∧
      (cancelAnimation w).skin.spaceBetweenLines = w.skin.spaceBetweenLines := by
    rw [cancelAnimation_skin]
    exact ⟨rfl, rfl⟩
  cases st with
  | startTypeAnimation => exact hc
  | startRainbowAnimation now => exact hc
  | startZoomAnimation now => exact hc
  | cancelAnimation => exact hc
  | fire handle => exact fireTimer_pitch handle w
  | setText now text => exact ⟨rfl, rfl⟩
  | setColor color => exact ⟨rfl, rfl⟩
  | setAlign now align => exact ⟨rfl, rfl⟩
  | setWidth now width => exact ⟨rfl, rfl⟩
  | setFontFamily now font => exact ⟨rfl, rfl⟩

/-- Every reachable skin still has the base font size and the line spacing
its constructor gave it. -/
theorem reachable_pitch {env : TextServices} {w : World} (h : Reachable env w) :
    w.skin.baseFontSize = DEFAULT_FONT_SIZE ∧
    w.skin.spaceBetweenLines = DEFAULT_SPACE_BETWEEN_LINES := by
  obtain ⟨id, stageWidth, steps, rfl⟩ := h
  have key : ∀ (steps : List Step) (w : World),
      (run env w steps).skin.baseFontSize = w.skin.baseFontSize ∧
      (run env w steps).skin.spaceBetweenLines = w.skin.spaceBetweenLines := by
    intro steps
    induction steps with
    | nil => intro w; exact ⟨rfl, rfl⟩
    | cons st rest ih =>
      intro w
      have h1 := ih (step env w st)
      have h2 := step_pitch env w st
      exact ⟨h1.1.trans h2.1, h1.2.trans h2.2⟩
  have := key steps (World.initial id stageWidth)
  exact ⟨this.1, this.2⟩

/-- The claim C11, as stated, fails for a width that is not a whole number:
after `setWidth(200.5)`, which runs `_calculateDimensions`, the configured
width is 200.5 but the width of the size is 201. -/
theorem calculateDimensions_width_counterexample :
    halfPixelWorld.skin.textWidth = 401 / 2 ∧
    halfPixelWorld.skin.size.1 = 201 ∧
    halfPixelWorld.skin.size.1 ≠ halfPixelWorld.skin.textWidth := by
  have h1 : halfPixelWorld.skin.textWidth = 401 / 2 := rfl
  have h2 : halfPixelWorld.skin.size.1 = 201 := by
    show ((jsRound (401 / 2) : ℤ) : ℚ) = 201
    have : jsRound (401 / 2) = 201 := by
      unfold jsRound
      rw [Int.floor_eq_iff]
      constructor <;> norm_num
    rw [this]
    norm_num
  refine ⟨h1, h2, ?_⟩
  rw [h1, h2]
  norm_num

/-- C11 (amended): after `_calculateDimensions`, for every configured width
and every sequence of wrapped lines, the size of the skin is
`(Math.round textWidth, Math.round (line count × (baseFontSize + spaceBetweenLines)))`:
its width is the configured width when that is a whole number, and within
1/2 of it otherwise; its height is the line count times the line pitch
when the pitch is a whole number, as it is for every reachable skin, whose
pitch stays the 24 + 3 of the constructor; and the rotation center set in the
same call lies at half the width of the size. -/
theorem calculateDimensions_size (env : TextServices) (now : ℤ) (s : TextCostumeSkin) :
    (s._calculateDimensions env now).size
      = ((jsRound s.textWidth : ℚ),
         (jsRound (((s._calculateDimensions env now).lines.length : ℚ)
            * (s.baseFontSize + s.spaceBetweenLines)) : ℚ)) ∧
    (s._calculateDimensions env now)._rotationCenter.1
      = (s._calculateDimensions env now).size.1 / 2 ∧
    ((s._calculateDimensions env now).textWidth = s.textWidth ∧
      (s._calculateDimensions env now).baseFontSize = s.baseFontSize ∧
      (s._calculateDimensions env now).spaceBetweenLines = s.spaceBetweenLines) ∧
    |(s._calculateDimensions env now).size.1 - s.textWidth| ≤ 1 / 2 ∧
    (∀ n : ℤ, s.textWidth = n → (s._calculateDimensions env now).size.1 = s.textWidth) ∧
    (∀ m : ℤ, s.baseFontSize + s.spaceBetweenLines = m →
      (s._calculateDimensions env now).size.2
        = ((s._calculateDimensions env now).lines.length : ℚ)
            * (s.baseFontSize + s.spaceBetweenLines)) ∧
    (s.baseFontSize = DEFAULT_FONT_SIZE → s.spaceBetweenLines = DEFAULT_SPACE_BETWEEN_LINES →
      (s._calculateDimensions env now).size.2
        = ((s._calculateDimensions env now).lines.length : ℚ) * (24 + 3)) ∧
    (∀ w : World, Reachable env w → w.skin = s →
      (s._calculateDimensions env now).size.2
        = ((s._calculateDimensions env now).lines.length : ℚ)
            * (s.baseFontSize + s.spaceBetweenLines)) := by
  have hsize : (s._calculateDimensions env now).size
      = ((jsRound s.textWidth : ℚ),
         (jsRound (((s._calculateDimensions env now).lines.length : ℚ)
            * (s.baseFontSize + s.spaceBetweenLines)) : ℚ)) := rfl
  have hheight : ∀ m : ℤ, s.baseFontSize + s.spaceBetweenLines = m →
      (s._calculateDimensions env now).size.2
        = ((s._calculateDimensions env now).lines.length : ℚ)
            * (s.baseFontSize + s.spaceBetweenLines) := by
    intro m hm
    rw [hsize, hm]
    show ((jsRound (((s._calculateDimensions env now).lines.length : ℚ) * (m : ℚ)) : ℤ) : ℚ)
      = ((s._calculateDimensions env now).lines.length : ℚ) * (m : ℚ)
    have : ((s._calculateDimensions env now).lines.length : ℚ) * (m : ℚ)
        = (((s._calculateDimensions env now).lines.length * m : ℤ) : ℚ) := by
      push_cast
      ring
    rw [this, jsRound_intCast]
  refine ⟨hsize, rfl, ⟨rfl, rfl, rfl⟩, ?_, ?_, hheight, ?_, ?_⟩
  · rw [hsize]
    exact jsRound_near _
  · intro n hn
    rw [hsize, hn]
    show ((jsRound (n : ℚ) : ℤ) : ℚ) = (n : ℚ)
    rw [jsRound_intCast]
  · intro hb hs
    have := hheight 27 (by rw [hb, hs]; norm_num [DEFAULT_FONT_SIZE, DEFAULT_SPACE_BETWEEN_LINES])
    rw [this, hb, hs]
    norm_num [DEFAULT_FONT_SIZE, DEFAULT_SPACE_BETWEEN_LINES]
  · intro w hw hws
    obtain ⟨hb, hs⟩ := reachable_pitch hw
    rw [hws] at hb hs
    exact hheight 27 (by rw [hb, hs]; norm_num [DEFAULT_FONT_SIZE, DEFAULT_SPACE_BETWEEN_LINES])

/-- Witness for C11: a fresh skin of width 200 whose text wraps into two
lines has size 200 by 54 and its rotation center at 100. -/
theorem calculateDimensions_size_witness :
    (narrowSkin._calculateDimensions twoLineServices 0).lines.length = 2 ∧
    (narrowSkin._calculateDimensions twoLineServices 0).size.1 = 200 ∧
    (narrowSkin._calculateDimensions twoLineServices 0).size.2 = 54 ∧
    (narrowSkin._calculateDimensions twoLineServices 0)._rotationCenter.1 = 100 := by
  obtain ⟨-, hc, -, -, hw, -, -, hh⟩ := calculateDimensions_size twoLineServices 0 narrowSkin
  have hlen : (narrowSkin._calculateDimensions twoLineServices 0).lines.length = 2 := rfl
  have h1 : (narrowSkin._calculateDimensions twoLineServices 0).size.1 = 200 := by
    rw [hw 200 (by norm_num [narrowSkin, TextCostumeSkin.new])]
    norm_num [narrowSkin, TextCostumeSkin.new]
  have h2 : (narrowSkin._calculateDimensions twoLineServices 0).size.2 = 54 := by
    rw [hh (World.initial 0 200) ⟨0, 200, [], rfl⟩ rfl, hlen]
    norm_num [narrowSkin, TextCostumeSkin.new, DEFAULT_FONT_SIZE, DEFAULT_SPACE_BETWEEN_LINES]
  refine ⟨hlen, h1, h2, ?_⟩
  rw [hc, h1]
  norm_num

end AnimatedText
